import Mathlib

/-!
Verification development for the blood-report analysis pipeline in
`blood_report_og.py`.

The Python source is shallowly embedded: every function that the claims
touch (`find_hemoglobin`, `find_wbc`, `extract_blood_values`,
`analyze_blood_results`, `categorize_blood_tests`,
`simple_text_summarization`, `summarize_report`, `process_file`,
`simple_nlp_processing`) is translated into an executable Lean definition.

Modelling conventions:
* Python `float` is modelled by `ℚ` (every number the program manipulates
  is parsed from a decimal token or obtained by dividing one by 10, so
  exact rational arithmetic mirrors the comparisons the program makes).
* Python strings are modelled by `String` at the API boundary and by lists
  of Unicode code points (`Chars := List Nat`, via `cs`) inside the
  text-processing core; indices and lengths count characters, as Python
  does.  Case folding (`lowc`) and the character classes used by the
  patterns (`\d`, `\s`, `\w`) act on the ASCII range, which covers every
  character the embedded patterns and catalog names contain.
* The concrete regular expressions appearing in the source are each
  translated into a small pattern structure (`Pat`) built from the atoms
  the source patterns actually use (literals, single-character classes,
  `?`/`*`/`+` on classes, and a single numeric capture group
  `(\d+\.?\d*)`, or `(\d{3}\.?\d*)`); the matcher implements Python's
  leftmost search with greedy, backtracking repetition.  Pattern text
  obtained by f-string interpolation of catalog names is translated with
  Python-`re` semantics for the few names containing metacharacters
  (`Na+`, `K+`, `Ca++`, `Mg++`, `Est. GFR`, `T. Chol`, `25(OH)D`,
  `Lp(a)`, `Lipoprotein(a)`); `Ca++`/`Mg++` use the possessive `++` of
  Python ≥ 3.11, which coincides with greedy repetition in the contexts
  where they occur.  Names containing `(...)` shift the numbering of
  capture groups, so those patterns return the constant text captured by
  the interpolated group, exactly as `match.group(1)` does.
* Calls into NLTK / transformers (tokenizers, the POS tagger, stop-word
  corpus, the optional transformer summarizer) are external collaborators
  of the source; they are passed in as explicit oracle parameters.
* `float(...)` is modelled by the partial parser `pyFloat`; every
  `try: ... float(...) ... except ValueError: pass` in the source becomes
  an `Option`-typed skip (`tryInsert`), mirroring the local handler.
-/

attribute [local semireducible] Rat.mul Rat.inv Rat.add Rat.sub Rat.ofScientific

abbrev Chars := List Nat

/-- Code points of a string (the embedding's working representation of
Python text). -/
def cs (s : String) : Chars := s.data.map Char.toNat

/-- Code point of one character. -/
def cc (c : Char) : Nat := c.toNat

/-- Lower-casing of one character (`str.lower` restricted to ASCII, which
covers every character the embedded patterns and catalog names use;
identical to `Char.toLower` on code points). -/
def lowc (n : Nat) : Nat := if 65 ≤ n && n ≤ 90 then n + 32 else n

def isDigitC (n : Nat) : Bool := 48 ≤ n && n ≤ 57

/-- Python's `\s` on ASCII input: space, tab, newline, carriage return,
vertical tab, form feed. -/
def isSpaceC (n : Nat) : Bool :=
  n = 32 || n = 9 || n = 10 || n = 13 || n = 11 || n = 12

/-- `str.isalnum` restricted to ASCII (`Char.isAlphanum` on code points). -/
def isAlnumC (n : Nat) : Bool :=
  (48 ≤ n && n ≤ 57) || (65 ≤ n && n ≤ 90) || (97 ≤ n && n ≤ 122)

/-- Python's `\w` on ASCII input. -/
def isWordC (n : Nat) : Bool := isAlnumC n || n = 95

/-- Match a literal (case-insensitively when `ci`) against the head of the
input, returning the remainder on success. -/
def litMatch (s : Chars) (ci : Bool) (input : Chars) : Option Chars :=
  match s, input with
  | [], rest => some rest
  | _ :: _, [] => none
  | a :: as, b :: bs =>
    if (if ci then lowc a = lowc b else a = b) then litMatch as ci bs else none

/-- Regular-expression atoms used by the patterns in the source. -/
inductive RE where
  | cls (p : Nat → Bool)
  | lit (s : Chars) (ci : Bool)
  | opt (p : Nat → Bool)
  | star (p : Nat → Bool)
  | plus (p : Nat → Bool)

/-- Backtracking helper: try the continuation on `input.drop i` for
`i = n, n-1, …, 0` (longest consumed first: greedy repetition). -/
def tryDropsDesc (input : Chars) (n : ℕ) (k : Chars → Option Chars) : Option Chars :=
  match n with
  | 0 => k input
  | Nat.succ m =>
    match k (input.drop (Nat.succ m)) with
    | some r => some r
    | none => tryDropsDesc input m k

/-- Match a sequence of atoms against the head of the input, feeding the
remainder to the continuation; repetitions are greedy with backtracking,
as in Python `re`. -/
def matchREs (es : List RE) (input : Chars) (k : Chars → Option Chars) : Option Chars :=
  match es with
  | [] => k input
  | e :: rest =>
    match e with
    | .cls p =>
      match input with
      | [] => none
      | c :: s => if p c then matchREs rest s k else none
    | .lit t ci =>
      match litMatch t ci input with
      | some s => matchREs rest s k
      | none => none
    | .opt p =>
      match input with
      | c :: s =>
        if p c then
          match matchREs rest s k with
          | some r => some r
          | none => matchREs rest input k
        else matchREs rest input k
      | [] => matchREs rest input k
    | .star p =>
      tryDropsDesc input (input.takeWhile p).length (fun s => matchREs rest s k)
    | .plus p =>
      match input with
      | [] => none
      | c :: s =>
        if p c then
          tryDropsDesc s (s.takeWhile p).length (fun s' => matchREs rest s' k)
        else none

/-- Backtracking over the fractional digits of a numeric capture:
token `ds ++ "." ++ ds2.take j` for `j` descending. -/
def tryFracDesc (ds ds2 afterDot : Chars) (j : ℕ)
    (k : Chars → Chars → Option Chars) : Option Chars :=
  match j with
  | 0 => k (ds ++ cc '.' :: ds2.take 0) (afterDot.drop 0)
  | Nat.succ m =>
    match k (ds ++ cc '.' :: ds2.take (Nat.succ m)) (afterDot.drop (Nat.succ m)) with
    | some r => some r
    | none => tryFracDesc ds ds2 afterDot m k

/-- Backtracking over the integer digits of a numeric capture:
token `input.take i` for `i` descending, not below `minLen`. -/
def tryIntDesc (input : Chars) (minLen : ℕ) :
    ℕ → (Chars → Chars → Option Chars) → Option Chars
  | 0, k => if 0 < minLen then none else k (input.take 0) (input.drop 0)
  | Nat.succ m, k =>
    if Nat.succ m < minLen then none
    else
      match k (input.take (Nat.succ m)) (input.drop (Nat.succ m)) with
      | some r => some r
      | none => tryIntDesc input minLen m k

/-- Fractional part of the numeric capture: when an optional point follows
the integer digits, try the greedy fraction extents. -/
def matchNumFrac (input : Chars) (k : Chars → Chars → Option Chars) : Option Chars :=
  match input.drop (input.takeWhile isDigitC).length with
  | c :: r2 =>
    if c = cc '.' then
      tryFracDesc (input.takeWhile isDigitC) (r2.takeWhile isDigitC) r2
        (r2.takeWhile isDigitC).length k
    else none
  | [] => none

/-- Match the numeric capture group `(\d+\.?\d*)` (or `(\d{3}\.?\d*)` when
`three`), greedily with backtracking; the continuation receives the
captured token and the remainder. -/
def matchNum (three : Bool) (input : Chars) (k : Chars → Chars → Option Chars) :
    Option Chars :=
  if (input.takeWhile isDigitC).length < (if three then 3 else 1) then none
  else
    match matchNumFrac input k with
    | some r => some r
    | none => tryIntDesc input (if three then 3 else 1) (input.takeWhile isDigitC).length k

/-- One concrete regex of the source: elements before the capture group, the
capture kind, elements after it.  `constCap` models the group-number shift
caused by interpolated names that themselves contain `( … )`: the pattern
must still match in full, but `group(1)` returns the fixed interpolated
text. -/
structure Pat where
  pre : List RE
  three : Bool := false
  post : List RE := []
  constCap : Option String := none

/-- Match a pattern at the start of the input, returning `group(1)`. -/
def matchPatAt (p : Pat) (input : Chars) : Option Chars :=
  matchREs p.pre input (fun s1 =>
    matchNum p.three s1 (fun tok s2 =>
      matchREs p.post s2 (fun _ =>
        some (match p.constCap with | some c => cs c | none => tok))))

/-- Fast necessary test for a match of `p` at this position: when it is
`false`, `matchPatAt p input = none` (`quickFail_sound` below) — the first
atom (or, with empty `pre`, the leading digit of the capture group) cannot
consume the head of the input.  Purely an evaluation shortcut for the
position scan of `searchPatFrom`. -/
def quickOk (p : Pat) (input : Chars) : Bool :=
  match p.pre with
  | .lit (a :: _) ci :: _ =>
    match input with
    | [] => false
    | b :: _ => if ci then lowc a == lowc b else a == b
  | .cls q :: _ => match input with | [] => false | b :: _ => q b
  | .plus q :: _ => match input with | [] => false | b :: _ => q b
  | [] => match input with | [] => false | b :: _ => isDigitC b
  | _ => true

/-- One scan position: the match attempt at the head of `s`, behind the
`quickOk` shortcut. -/
def searchStep (p : Pat) (s : Chars) : Option Chars :=
  if quickOk p s then matchPatAt p s else none

/-- Python `re.search`: try every start position from the left. -/
def searchPatFrom (p : Pat) (s : Chars) : Option Chars :=
  match searchStep p s with
  | some tok => some tok
  | none =>
    match s with
    | [] => none
    | _ :: rest => searchPatFrom p rest

/-- First of several patterns that matches anywhere in the line
(`re.search(p1, line) or re.search(p2, line) or …`). -/
def searchPats (ps : List Pat) (line : Chars) : Option Chars :=
  match ps with
  | [] => none
  | p :: rest =>
    match searchPatFrom p line with
    | some tok => some tok
    | none => searchPats rest line

/-- Match a capture-free atom sequence at the start of the input. -/
def matchBoolAt (es : List RE) (input : Chars) : Bool :=
  (matchREs es input (fun _ => some [])).isSome

/-- Search a capture-free atom sequence anywhere in the input. -/
def searchBool (es : List RE) (s : Chars) : Bool :=
  match s with
  | [] => matchBoolAt es []
  | _ :: rest => matchBoolAt es s || searchBool es rest

/-- Case-insensitive substring test on code points. -/
def containsCIc (nd : Chars) (s : Chars) : Bool :=
  match s with
  | [] => (litMatch nd true []).isSome
  | _ :: rest => (litMatch nd true s).isSome || containsCIc nd rest

/-- Case-insensitive substring test (`needle.lower() in hay.lower()` and the
plain alternation branches of the source regexes). -/
def containsCI (needle : String) (s : Chars) : Bool := containsCIc (cs needle) s

/-- Exact substring containment of `needle` in `hay` (both already
normalised by the caller); Python's `in`. -/
def containsSub (hay needle : Chars) : Bool :=
  match hay with
  | [] => (litMatch needle false []).isSome
  | _ :: rest => (litMatch needle false hay).isSome || containsSub rest needle

/-- Python `str.find`: index of the first occurrence, `none` for absent. -/
def findSub (hay needle : Chars) : Option ℕ :=
  match litMatch needle false hay with
  | some _ => some 0
  | none =>
    match hay with
    | [] => none
    | _ :: rest => (findSub rest needle).map (· + 1)

def endBoundary (rest : Chars) : Bool :=
  match rest with
  | [] => true
  | c :: _ => !isWordC c

/-- Search for `\b{needle}\b` with `re.IGNORECASE`, for needles that begin
and end with word characters (every catalog name does). -/
def wholeWordCI (needle : Chars) (line : Chars) : Bool :=
  wwFrom none line
where
  wwFrom (prev : Option Nat) (s : Chars) : Bool :=
    ((match prev with | none => true | some c => !isWordC c) &&
      (match litMatch needle true s with
       | some rest => endBoundary rest
       | none => false)) ||
    (match s with
     | [] => false
     | c :: rest => wwFrom (some c) rest)

/-- Search for `[Hh]b\b` (case-insensitive): an occurrence of `hb` followed
by a word boundary. -/
def hbWordB (s : Chars) : Bool :=
  (match litMatch [cc 'h', cc 'b'] true s with
   | some rest => endBoundary rest
   | none => false) ||
  (match s with
   | [] => false
   | _ :: rest => hbWordB rest)

/-- Grab the numeric token `\d+\.?\d*` starting at the head of `s` (whose
head is a digit), returning the token and the remainder. -/
def grabNum (s : Chars) : Chars × Chars :=
  let ds := s.takeWhile isDigitC
  let r1 := s.drop ds.length
  match r1 with
  | c :: r2 =>
    if c = cc '.' then
      let ds2 := r2.takeWhile isDigitC
      (ds ++ cc '.' :: ds2, r2.drop ds2.length)
    else (ds, r1)
  | _ => (ds, r1)

/-- Fuel-driven worker for `findNumbers` (the fuel is an upper bound on the
input length, so it never runs out). -/
def findNumbersF : ℕ → Chars → List Chars
  | 0, _ => []
  | _ + 1, [] => []
  | fuel + 1, c :: rest =>
    if isDigitC c then
      let g := grabNum (c :: rest)
      g.1 :: findNumbersF fuel g.2
    else findNumbersF fuel rest

/-- Python `re.findall(r'\d+\.?\d*', s)`: the numeric tokens of `s`, left to
right, non-overlapping, greedy. -/
def findNumbers (s : Chars) : List Chars := findNumbersF s.length s

/-- Python `text.split('\n')`. -/
def splitNLGo (acc : Chars) (s : Chars) : List Chars :=
  match s with
  | [] => [acc.reverse]
  | c :: rest =>
    if c = 10 then acc.reverse :: splitNLGo [] rest else splitNLGo (c :: acc) rest

def splitNL (s : Chars) : List Chars := splitNLGo [] s

/-- Python `str.strip()` (ASCII whitespace). -/
def stripC (s : Chars) : Chars :=
  ((s.dropWhile isSpaceC).reverse.dropWhile isSpaceC).reverse

def digitsToNat (ds : Chars) : ℕ :=
  ds.foldl (fun a c => 10 * a + (c - 48)) 0

/-- Python `float(s)`, restricted to the token shapes the embedded regexes
can capture: digit strings with an optional point and optional fractional
digits.  Everything else (for instance the constant texts produced by
group-shifted patterns) raises `ValueError` in Python and is `none` here. -/
def pyFloat (s : Chars) : Option ℚ :=
  let ip := s.takeWhile isDigitC
  let r1 := s.drop ip.length
  match r1 with
  | [] => if ip.isEmpty then none else some (digitsToNat ip : ℚ)
  | c :: r2 =>
    if c = cc '.' then
      let fp := r2.takeWhile isDigitC
      if ¬ (r2.drop fp.length).isEmpty then none
      else if ip.isEmpty && fp.isEmpty then none
      else some ((digitsToNat ip : ℚ) + (digitsToNat fp : ℚ) / (10 ^ fp.length : ℚ))
    else none

/-- Result mapping of the extractor: a Python dict from test code to value,
as an insertion-ordered association list with unique keys. -/
abbrev RMap := List (String × ℚ)

def containsKey (m : RMap) (k : String) : Bool := m.any (fun p => p.1 == k)

/-- Python `results[k] = v`: update in place if present, else append. -/
def dinsert (m : RMap) (k : String) (v : ℚ) : RMap :=
  if containsKey m k then m.map (fun p => if p.1 == k then (k, v) else p)
  else m ++ [(k, v)]

/-- The ubiquitous `try: results[k] = float(tok) except ValueError: pass`:
a failed parse leaves the mapping unchanged. -/
def tryInsert (m : RMap) (k : String) (v? : Option ℚ) : RMap :=
  match v? with
  | some v => dinsert m k v
  | none => m
/-- Data table transcribed from the source dict BLOOD_TEST_CORPUS (test code, display name), in the order of the dict literal. -/
def BLOOD_TEST_CORPUS : List (String × String) := [
  ("RBC", "Red Blood Cells"),
  ("WBC", "White Blood Cells"),
  ("Hb", "Hemoglobin"),
  ("HCT", "Hematocrit"),
  ("MCV", "Mean Corpuscular Volume"),
  ("MCH", "Mean Corpuscular Hemoglobin"),
  ("MCHC", "Mean Corpuscular Hemoglobin Concentration"),
  ("RDW", "Red Cell Distribution Width"),
  ("PLT", "Platelets"),
  ("MPV", "Mean Platelet Volume"),
  ("PDW", "Platelet Distribution Width"),
  ("PCT", "Plateletcrit"),
  ("Neutrophils", "Neutrophils"),
  ("Lymphocytes", "Lymphocytes"),
  ("Monocytes", "Monocytes"),
  ("Eosinophils", "Eosinophils"),
  ("Basophils", "Basophils"),
  ("NeutrophilsAbs", "Absolute Neutrophil Count"),
  ("LymphocytesAbs", "Absolute Lymphocyte Count"),
  ("MonocytesAbs", "Absolute Monocyte Count"),
  ("EosinophilsAbs", "Absolute Eosinophil Count"),
  ("BasophilsAbs", "Absolute Basophil Count"),
  ("Bands", "Band Neutrophils"),
  ("Segs", "Segmented Neutrophils"),
  ("BUN", "Blood Urea Nitrogen"),
  ("Creatinine", "Creatinine"),
  ("eGFR", "Estimated Glomerular Filtration Rate"),
  ("BUN/Creatinine Ratio", "BUN/Creatinine Ratio"),
  ("Uric Acid", "Uric Acid"),
  ("Cystatin C", "Cystatin C"),
  ("Sodium", "Sodium"),
  ("Potassium", "Potassium"),
  ("Chloride", "Chloride"),
  ("Bicarbonate", "Bicarbonate"),
  ("Carbon Dioxide", "Carbon Dioxide"),
  ("Calcium", "Calcium"),
  ("Ionized Calcium", "Ionized Calcium"),
  ("Phosphorus", "Phosphorus"),
  ("Magnesium", "Magnesium"),
  ("Total Protein", "Total Protein"),
  ("Albumin", "Albumin"),
  ("Globulin", "Globulin"),
  ("A/G Ratio", "Albumin/Globulin Ratio"),
  ("Total Bilirubin", "Total Bilirubin"),
  ("Direct Bilirubin", "Direct Bilirubin"),
  ("Indirect Bilirubin", "Indirect Bilirubin"),
  ("Alkaline Phosphatase", "Alkaline Phosphatase"),
  ("ALT", "Alanine Aminotransferase"),
  ("AST", "Aspartate Aminotransferase"),
  ("GGT", "Gamma-Glutamyl Transferase"),
  ("LDH", "Lactate Dehydrogenase"),
  ("Cholesterol", "Total Cholesterol"),
  ("Triglycerides", "Triglycerides"),
  ("HDL", "High-Density Lipoprotein"),
  ("LDL", "Low-Density Lipoprotein"),
  ("VLDL", "Very Low-Density Lipoprotein"),
  ("Non-HDL", "Non-HDL Cholesterol"),
  ("TC/HDL Ratio", "Total Cholesterol/HDL Ratio"),
  ("LDL/HDL Ratio", "LDL/HDL Ratio"),
  ("ApoA", "Apolipoprotein A"),
  ("ApoB", "Apolipoprotein B"),
  ("Lp(a)", "Lipoprotein(a)"),
  ("Glucose", "Glucose"),
  ("FBS", "Fasting Blood Sugar"),
  ("RBS", "Random Blood Sugar"),
  ("HbA1c", "Glycated Hemoglobin"),
  ("Insulin", "Insulin"),
  ("HOMA-IR", "Homeostatic Model Assessment for Insulin Resistance"),
  ("C-Peptide", "C-Peptide"),
  ("TSH", "Thyroid Stimulating Hormone"),
  ("T3", "Triiodothyronine"),
  ("T4", "Thyroxine"),
  ("Free T3", "Free Triiodothyronine"),
  ("Free T4", "Free Thyroxine"),
  ("T3 Uptake", "T3 Uptake"),
  ("Thyroglobulin", "Thyroglobulin"),
  ("TBG", "Thyroxine Binding Globulin"),
  ("Iron", "Iron"),
  ("TIBC", "Total Iron Binding Capacity"),
  ("UIBC", "Unsaturated Iron Binding Capacity"),
  ("Transferrin", "Transferrin"),
  ("Transferrin Saturation", "Transferrin Saturation"),
  ("Ferritin", "Ferritin"),
  ("Vitamin B12", "Vitamin B12"),
  ("Folate", "Folate"),
  ("Vitamin D", "Vitamin D"),
  ("25-OH Vitamin D", "25-Hydroxyvitamin D"),
  ("1,25-OH Vitamin D", "1,25-Dihydroxyvitamin D"),
  ("Vitamin A", "Vitamin A"),
  ("Vitamin E", "Vitamin E"),
  ("Vitamin K", "Vitamin K"),
  ("CRP", "C-Reactive Protein"),
  ("hsCRP", "High-Sensitivity C-Reactive Protein"),
  ("ESR", "Erythrocyte Sedimentation Rate"),
  ("Procalcitonin", "Procalcitonin"),
  ("PT", "Prothrombin Time"),
  ("INR", "International Normalized Ratio"),
  ("aPTT", "Activated Partial Thromboplastin Time"),
  ("Fibrinogen", "Fibrinogen"),
  ("D-dimer", "D-dimer"),
  ("Troponin I", "Troponin I"),
  ("Troponin T", "Troponin T"),
  ("CK", "Creatine Kinase"),
  ("CK-MB", "Creatine Kinase-MB"),
  ("BNP", "B-Type Natriuretic Peptide"),
  ("NT-proBNP", "N-Terminal pro-B-Type Natriuretic Peptide"),
  ("Homocysteine", "Homocysteine"),
  ("PSA", "Prostate Specific Antigen"),
  ("Free PSA", "Free Prostate Specific Antigen"),
  ("CEA", "Carcinoembryonic Antigen"),
  ("AFP", "Alpha-Fetoprotein"),
  ("CA 19-9", "Cancer Antigen 19-9"),
  ("CA 125", "Cancer Antigen 125"),
  ("CA 15-3", "Cancer Antigen 15-3"),
  ("ANA", "Antinuclear Antibody"),
  ("RF", "Rheumatoid Factor"),
  ("Anti-CCP", "Anti-Cyclic Citrullinated Peptide"),
  ("Anti-dsDNA", "Anti-Double Stranded DNA"),
  ("IgE", "Immunoglobulin E"),
  ("IgG", "Immunoglobulin G"),
  ("IgA", "Immunoglobulin A"),
  ("IgM", "Immunoglobulin M"),
  ("Amylase", "Amylase"),
  ("Lipase", "Lipase"),
  ("Cortisol", "Cortisol"),
  ("Testosterone", "Testosterone"),
  ("Free Testosterone", "Free Testosterone"),
  ("Estradiol", "Estradiol"),
  ("Progesterone", "Progesterone"),
  ("HCG", "Human Chorionic Gonadotropin"),
  ("FSH", "Follicle Stimulating Hormone"),
  ("LH", "Luteinizing Hormone"),
  ("Prolactin", "Prolactin")
]

/-- Data table transcribed from the source dict NORMAL_RANGES (test code, (low, high, unit)). -/
def NORMAL_RANGES : List (String × ℚ × ℚ × String) := [
  ("RBC", 4.5, 5.9, "10^6/μL"),
  ("WBC", 4.5, 11.0, "10^3/μL"),
  ("Hb", 13.5, 17.5, "g/dL"),
  ("HCT", 41.0, 50.0, "%"),
  ("MCV", 80, 100, "fL"),
  ("MCH", 27, 33, "pg"),
  ("MCHC", 32, 36, "g/dL"),
  ("RDW", 11.5, 14.5, "%"),
  ("PLT", 150, 450, "10^3/μL"),
  ("MPV", 9.4, 12.3, "fL"),
  ("Neutrophils", 45, 75, "%"),
  ("Lymphocytes", 20, 40, "%"),
  ("Monocytes", 2, 10, "%"),
  ("Eosinophils", 1, 6, "%"),
  ("Basophils", 0, 2, "%"),
  ("NeutrophilsAbs", 1.8, 7.7, "10^3/μL"),
  ("LymphocytesAbs", 1.0, 4.8, "10^3/μL"),
  ("MonocytesAbs", 0.2, 0.8, "10^3/μL"),
  ("EosinophilsAbs", 0.0, 0.5, "10^3/μL"),
  ("BasophilsAbs", 0.0, 0.2, "10^3/μL"),
  ("BUN", 7, 20, "mg/dL"),
  ("Creatinine", 0.7, 1.3, "mg/dL"),
  ("eGFR", 90, 120, "mL/min/1.73m²"),
  ("BUN/Creatinine Ratio", 10, 20, "ratio"),
  ("Uric Acid", 3.5, 7.2, "mg/dL"),
  ("Sodium", 135, 145, "mEq/L"),
  ("Potassium", 3.5, 5.0, "mEq/L"),
  ("Chloride", 96, 106, "mEq/L"),
  ("Bicarbonate", 23, 29, "mEq/L"),
  ("Carbon Dioxide", 23, 29, "mEq/L"),
  ("Calcium", 8.5, 10.5, "mg/dL"),
  ("Ionized Calcium", 4.5, 5.6, "mg/dL"),
  ("Phosphorus", 2.5, 4.5, "mg/dL"),
  ("Magnesium", 1.7, 2.2, "mg/dL"),
  ("Total Protein", 6.0, 8.3, "g/dL"),
  ("Albumin", 3.5, 5.0, "g/dL"),
  ("Globulin", 2.3, 3.5, "g/dL"),
  ("A/G Ratio", 1.2, 2.2, "ratio"),
  ("Total Bilirubin", 0.1, 1.2, "mg/dL"),
  ("Direct Bilirubin", 0.0, 0.3, "mg/dL"),
  ("Indirect Bilirubin", 0.1, 0.9, "mg/dL"),
  ("Alkaline Phosphatase", 44, 147, "U/L"),
  ("ALT", 7, 56, "U/L"),
  ("AST", 10, 40, "U/L"),
  ("GGT", 8, 61, "U/L"),
  ("LDH", 140, 280, "U/L"),
  ("Cholesterol", 0, 200, "mg/dL"),
  ("Triglycerides", 0, 150, "mg/dL"),
  ("HDL", 40, 60, "mg/dL"),
  ("LDL", 0, 100, "mg/dL"),
  ("VLDL", 5, 40, "mg/dL"),
  ("TC/HDL Ratio", 0, 5, "ratio"),
  ("Glucose", 70, 99, "mg/dL"),
  ("FBS", 70, 99, "mg/dL"),
  ("HbA1c", 4.0, 5.6, "%"),
  ("Insulin", 2, 20, "μIU/mL"),
  ("TSH", 0.4, 4.0, "mIU/L"),
  ("T3", 80, 200, "ng/dL"),
  ("T4", 5.0, 12.0, "μg/dL"),
  ("Free T3", 2.3, 4.2, "pg/mL"),
  ("Free T4", 0.9, 1.7, "ng/dL"),
  ("Iron", 60, 170, "μg/dL"),
  ("TIBC", 240, 450, "μg/dL"),
  ("Transferrin Saturation", 15, 50, "%"),
  ("Ferritin", 30, 400, "ng/mL"),
  ("Vitamin B12", 200, 900, "pg/mL"),
  ("Folate", 2.7, 17.0, "ng/mL"),
  ("Vitamin D", 30, 100, "ng/mL"),
  ("25-OH Vitamin D", 30, 100, "ng/mL"),
  ("CRP", 0, 10, "mg/L"),
  ("hsCRP", 0, 3, "mg/L"),
  ("ESR", 0, 15, "mm/hr"),
  ("PT", 11, 13.5, "seconds"),
  ("INR", 0.8, 1.2, "ratio"),
  ("aPTT", 25, 35, "seconds"),
  ("Fibrinogen", 200, 400, "mg/dL"),
  ("D-dimer", 0, 0.5, "μg/mL"),
  ("Troponin I", 0, 0.04, "ng/mL"),
  ("Troponin T", 0, 0.01, "ng/mL"),
  ("CK", 30, 200, "U/L"),
  ("CK-MB", 30, 200, "U/L"),
  ("BNP", 0, 100, "pg/mL"),
  ("NT-proBNP", 0, 100, "pg/mL"),
  ("Homocysteine", 0, 20, "μmol/L"),
  ("PSA", 0, 4, "ng/mL"),
  ("Free PSA", 0, 4, "ng/mL"),
  ("CEA", 0, 5, "ng/mL"),
  ("AFP", 0, 10, "ng/mL"),
  ("CA 19-9", 0, 37, "U/mL"),
  ("CA 125", 0, 35, "U/mL"),
  ("CA 15-3", 0, 20, "ng/mL"),
  ("ANA", 0, 100, "IU/mL"),
  ("RF", 0, 10, "IU/mL"),
  ("Anti-CCP", 0, 10, "IU/mL"),
  ("Anti-dsDNA", 0, 10, "IU/mL"),
  ("IgE", 0, 100, "IU/mL"),
  ("IgG", 0, 100, "IU/mL"),
  ("IgA", 0, 100, "IU/mL"),
  ("IgM", 0, 100, "IU/mL"),
  ("Amylase", 0, 100, "U/L"),
  ("Lipase", 0, 100, "U/L"),
  ("Cortisol", 0, 20, "μg/dL"),
  ("Testosterone", 0, 1000, "ng/dL"),
  ("Free Testosterone", 0, 1000, "ng/dL"),
  ("Estradiol", 0, 1.5, "ng/dL"),
  ("Progesterone", 0, 5, "ng/dL"),
  ("HCG", 0, 50, "mIU/L"),
  ("FSH", 0, 10, "mIU/L"),
  ("LH", 0, 10, "mIU/L"),
  ("Prolactin", 0, 50, "ng/L")
]

/-- Data table transcribed from the dict alternative_names defined inside extract_blood_values, preserving dict-literal order (it drives the scanning order). -/
def alternative_names : List (String × List String) := [
  ("Hb", ["Hb", "HGB", "Hemoglobin", "Haemoglobin", "HG", "Hgb", "hemoglobin", "haemoglobin", "Hgb"]),
  ("RBC", ["RBC", "Red Blood Cell", "Red Blood Cells", "Red blood count", "Erythrocytes", "red cells", "red cell count", "erythrocyte count"]),
  ("WBC", ["WBC", "White Blood Cell", "White Blood Cells", "White blood count", "Leukocytes", "white cells", "white cell count", "leukocyte count", "TLC", "total leukocyte count", "WBC count", "Leukocyte count"]),
  ("HCT", ["HCT", "Hct", "Hematocrit", "PCV", "Packed Cell Volume", "hematocrit", "haematocrit"]),
  ("MCV", ["MCV", "Mean Corpuscular Volume", "Mean Cell Volume"]),
  ("MCH", ["MCH", "Mean Corpuscular Hemoglobin", "Mean Cell Hemoglobin"]),
  ("MCHC", ["MCHC", "Mean Corpuscular Hemoglobin Concentration", "Mean Cell Hemoglobin Concentration"]),
  ("RDW", ["RDW", "Red Cell Distribution Width", "RDW-CV", "RDW-SD"]),
  ("PLT", ["PLT", "Platelet", "Platelets", "Thrombocytes", "platelet count", "Plt count", "Thrombocyte count"]),
  ("MPV", ["MPV", "Mean Platelet Volume"]),
  ("Neutrophils", ["Neutrophils", "Neutrophil", "Neut", "Neutro", "Polymorphs", "Polys", "PMN", "Segs", "Segmented neutrophils"]),
  ("Lymphocytes", ["Lymphocytes", "Lymphocyte", "Lymphs", "Lympho"]),
  ("Monocytes", ["Monocytes", "Monocyte", "Mono"]),
  ("Eosinophils", ["Eosinophils", "Eosinophil", "Eos"]),
  ("Basophils", ["Basophils", "Basophil", "Baso"]),
  ("NeutrophilsAbs", ["Absolute Neutrophil Count", "ANC", "Neutrophils Absolute", "Abs Neutrophils", "Neutrophil count", "Neutrophils #"]),
  ("LymphocytesAbs", ["Absolute Lymphocyte Count", "ALC", "Lymphocytes Absolute", "Abs Lymphocytes", "Lymphocyte count", "Lymphocytes #"]),
  ("BUN", ["BUN", "Blood Urea Nitrogen", "Urea Nitrogen", "Urea", "Blood Urea"]),
  ("Creatinine", ["Creatinine", "CREA", "Cr", "creatinine", "Serum Creatinine"]),
  ("eGFR", ["eGFR", "Estimated GFR", "Glomerular Filtration Rate", "Est. GFR"]),
  ("Sodium", ["Sodium", "Na", "Na+", "Serum Sodium"]),
  ("Potassium", ["Potassium", "K", "K+", "Serum Potassium"]),
  ("Chloride", ["Chloride", "Cl", "Cl-", "Serum Chloride"]),
  ("Bicarbonate", ["Bicarbonate", "HCO3", "HCO3-", "CO2", "Carbon Dioxide"]),
  ("Calcium", ["Calcium", "Ca", "Ca++", "Serum Calcium", "Total Calcium"]),
  ("Phosphorus", ["Phosphorus", "Phosphate", "PO4", "P"]),
  ("Magnesium", ["Magnesium", "Mg", "Mg++"]),
  ("Total Protein", ["Total Protein", "TP", "Protein, Total", "Serum Protein"]),
  ("Albumin", ["Albumin", "Alb", "Serum Albumin"]),
  ("Globulin", ["Globulin", "Glob", "Serum Globulin"]),
  ("Total Bilirubin", ["Total Bilirubin", "TBIL", "Bilirubin, Total", "Bilirubin Total"]),
  ("Direct Bilirubin", ["Direct Bilirubin", "DBIL", "Conjugated Bilirubin", "Bilirubin Direct"]),
  ("Alkaline Phosphatase", ["Alkaline Phosphatase", "ALP", "AlkPhos", "Alk Phos"]),
  ("ALT", ["ALT", "Alanine Aminotransferase", "SGPT", "Alanine transaminase"]),
  ("AST", ["AST", "Aspartate Aminotransferase", "SGOT", "Aspartate transaminase"]),
  ("GGT", ["GGT", "Gamma-Glutamyl Transferase", "Gamma GT", "GGTP"]),
  ("Cholesterol", ["Cholesterol", "CHOL", "Total Cholesterol", "TC", "T. Chol", "cholesterol"]),
  ("Triglycerides", ["Triglycerides", "TG", "TRIG", "Trigs"]),
  ("HDL", ["HDL", "HDL Cholesterol", "HDL-C", "High-Density Lipoprotein"]),
  ("LDL", ["LDL", "LDL Cholesterol", "LDL-C", "Low-Density Lipoprotein"]),
  ("VLDL", ["VLDL", "VLDL Cholesterol", "Very Low-Density Lipoprotein"]),
  ("Glucose", ["Glucose", "GLU", "Blood Glucose", "Serum Glucose", "blood sugar", "BS"]),
  ("FBS", ["FBS", "Fasting Blood Sugar", "Fasting Glucose", "Fasting Blood Glucose"]),
  ("HbA1c", ["HbA1c", "A1c", "Glycated Hemoglobin", "Glycosylated Hemoglobin", "Glycohemoglobin", "Hemoglobin A1c"]),
  ("TSH", ["TSH", "Thyroid Stimulating Hormone", "Thyrotropin"]),
  ("T3", ["T3", "Triiodothyronine", "Total T3"]),
  ("T4", ["T4", "Thyroxine", "Total T4"]),
  ("Free T3", ["Free T3", "FT3", "Free Triiodothyronine"]),
  ("Free T4", ["Free T4", "FT4", "Free Thyroxine"]),
  ("Iron", ["Iron", "Serum Iron", "Fe"]),
  ("TIBC", ["TIBC", "Total Iron Binding Capacity"]),
  ("Ferritin", ["Ferritin", "Serum Ferritin"]),
  ("Transferrin Saturation", ["Transferrin Saturation", "TSAT", "Iron Saturation", "% Saturation", "Transferrin Sat"]),
  ("Vitamin B12", ["Vitamin B12", "B12", "Cobalamin"]),
  ("Folate", ["Folate", "Folic Acid", "Serum Folate"]),
  ("Vitamin D", ["Vitamin D", "25-OH Vitamin D", "25-Hydroxyvitamin D", "25(OH)D", "Calcidiol"]),
  ("CRP", ["CRP", "C-Reactive Protein"]),
  ("hsCRP", ["hsCRP", "High-Sensitivity CRP", "hs-CRP", "High sensitive CRP"]),
  ("ESR", ["ESR", "Erythrocyte Sedimentation Rate", "Sed Rate", "Sedimentation Rate"]),
  ("PT", ["PT", "Prothrombin Time"]),
  ("INR", ["INR", "International Normalized Ratio"]),
  ("aPTT", ["aPTT", "PTT", "Activated Partial Thromboplastin Time", "Partial Thromboplastin Time"]),
  ("Troponin I", ["Troponin I", "cTnI", "Cardiac Troponin I"]),
  ("Troponin T", ["Troponin T", "cTnT", "Cardiac Troponin T"]),
  ("Uric Acid", ["Uric Acid", "UA"]),
  ("Amylase", ["Amylase", "Serum Amylase"]),
  ("Lipase", ["Lipase", "Serum Lipase"])
]

/-- Data table transcribed from the dict categories defined inside categorize_blood_tests. -/
def bloodCategories : List (String × List String) := [
  ("Complete Blood Count (CBC)", ["RBC", "WBC", "Hb", "HCT", "MCV", "MCH", "MCHC", "RDW", "PLT", "MPV", "PDW", "PCT"]),
  ("White Blood Cell Differential", ["Neutrophils", "Lymphocytes", "Monocytes", "Eosinophils", "Basophils", "NeutrophilsAbs", "LymphocytesAbs", "MonocytesAbs", "EosinophilsAbs", "BasophilsAbs", "Bands", "Segs"]),
  ("Kidney Function", ["BUN", "Creatinine", "eGFR", "BUN/Creatinine Ratio", "Uric Acid", "Cystatin C"]),
  ("Electrolytes", ["Sodium", "Potassium", "Chloride", "Bicarbonate", "Carbon Dioxide", "Calcium", "Ionized Calcium", "Phosphorus", "Magnesium"]),
  ("Liver Function", ["Total Protein", "Albumin", "Globulin", "A/G Ratio", "Total Bilirubin", "Direct Bilirubin", "Indirect Bilirubin", "Alkaline Phosphatase", "ALT", "AST", "GGT", "LDH"]),
  ("Lipid Panel", ["Cholesterol", "Triglycerides", "HDL", "LDL", "VLDL", "Non-HDL", "TC/HDL Ratio", "LDL/HDL Ratio", "ApoA", "ApoB", "Lp(a)"]),
  ("Blood Glucose", ["Glucose", "FBS", "RBS", "HbA1c", "Insulin", "HOMA-IR", "C-Peptide"]),
  ("Thyroid Function", ["TSH", "T3", "T4", "Free T3", "Free T4", "T3 Uptake", "Thyroglobulin", "TBG"]),
  ("Iron Studies", ["Iron", "TIBC", "UIBC", "Transferrin", "Transferrin Saturation", "Ferritin"]),
  ("Vitamins", ["Vitamin B12", "Folate", "Vitamin D", "25-OH Vitamin D", "1,25-OH Vitamin D", "Vitamin A", "Vitamin E", "Vitamin K"]),
  ("Inflammatory Markers", ["CRP", "hsCRP", "ESR", "Procalcitonin"]),
  ("Coagulation Studies", ["PT", "INR", "aPTT", "Fibrinogen", "D-dimer"]),
  ("Cardiac Markers", ["Troponin I", "Troponin T", "CK", "CK-MB", "BNP", "NT-proBNP", "Homocysteine"]),
  ("Other", [])
]

/-- Data table transcribed from the dict indications in get_low_indication. -/
def lowIndications : List (String × String) := [
  ("RBC", "anemia, blood loss, nutritional deficiency, or bone marrow issues."),
  ("WBC", "bone marrow problems, autoimmune disorders, or certain infections."),
  ("Hb", "anemia, blood loss, nutritional deficiencies, or chronic diseases."),
  ("HCT", "anemia, blood loss, or overhydration."),
  ("PLT", "bone marrow problems, autoimmune conditions, or increased platelet destruction."),
  ("Glucose", "hypoglycemia, which may be due to insulin excess, liver disease, or certain medications."),
  ("Sodium", "overhydration, kidney problems, heart failure, or certain medications."),
  ("Potassium", "kidney issues, diarrhea, vomiting, or certain medications."),
  ("Albumin", "liver disease, malnutrition, or kidney problems."),
  ("HDL", "increased cardiovascular risk."),
  ("Iron", "iron deficiency anemia or chronic blood loss.")
]

/-- Data table transcribed from the dict indications in get_high_indication. -/
def highIndications : List (String × String) := [
  ("RBC", "polycythemia, dehydration, or lung diseases."),
  ("WBC", "infection, inflammation, stress, or certain types of cancer."),
  ("Hb", "polycythemia, dehydration, or lung disease."),
  ("HCT", "polycythemia, dehydration, or certain lung conditions."),
  ("PLT", "infection, inflammation, or certain disorders."),
  ("Glucose", "diabetes, stress, certain medications, or pancreatic issues."),
  ("Creatinine", "kidney problems, muscle breakdown, or dehydration."),
  ("BUN", "kidney problems, dehydration, high protein diet, or gastrointestinal bleeding."),
  ("Sodium", "dehydration, diabetes insipidus, or excessive salt intake."),
  ("Potassium", "kidney disease, certain medications, or cell damage."),
  ("Total Bilirubin", "liver problems, bile duct obstruction, or certain types of anemia."),
  ("ALT", "liver damage, hepatitis, or certain medications."),
  ("AST", "liver damage, muscle injury, or heart problems."),
  ("Cholesterol", "increased cardiovascular risk, genetic conditions, or poor diet."),
  ("Triglycerides", "increased cardiovascular risk, diabetes, obesity, or alcohol consumption."),
  ("LDL", "increased cardiovascular risk."),
  ("TSH", "hypothyroidism or thyroid medication issues."),
  ("CRP", "inflammation, infection, or tissue damage.")
]

/-- Data table transcribed from the dict indications in get_expanded_low_indication (conditions, details). -/
def expandedLowIndications : List (String × String × String) := [
  ("RBC", "anemia, blood loss, nutritional deficiencies (iron, vitamin B12, folate), bone marrow problems, chronic kidney disease, or certain medications", "Low red blood cells reduce oxygen delivery to tissues, causing fatigue, weakness, and shortness of breath. This may require further investigation with iron studies, vitamin levels, or bone marrow examination."),
  ("WBC", "infection, inflammation, stress, or certain types of cancer", "Low white blood cells can indicate an infection or a weakened immune system. Consult with a healthcare provider for further evaluation."),
  ("Hb", "anemia, blood loss, nutritional deficiencies, or chronic diseases", "Low hemoglobin levels can cause fatigue, weakness, and shortness of breath. This may require further investigation with iron studies or blood transfusion."),
  ("HCT", "anemia, blood loss, or overhydration", "Low hematocrit levels can indicate anemia, blood loss, or overhydration. Consult with a healthcare provider for further evaluation."),
  ("PLT", "bone marrow problems, autoimmune conditions, or increased platelet destruction", "Low platelets can increase the risk of bleeding and bruising. Consult with a healthcare provider for further evaluation."),
  ("Glucose", "hypoglycemia, which may be due to insulin excess, liver disease, or certain medications", "Low blood sugar levels can cause symptoms like dizziness, sweating, and hunger. Consult with a healthcare provider for further evaluation."),
  ("Sodium", "overhydration, kidney problems, heart failure, or certain medications", "Low sodium levels can cause symptoms like fatigue, weakness, and swelling. Consult with a healthcare provider for further evaluation."),
  ("Potassium", "kidney issues, diarrhea, vomiting, or certain medications", "Low potassium levels can cause symptoms like muscle weakness, irregular heartbeat, or constipation. Consult with a healthcare provider for further evaluation."),
  ("Albumin", "liver disease, malnutrition, or kidney problems", "Low albumin levels can cause swelling in the body, weakness, or fatigue. Consult with a healthcare provider for further evaluation."),
  ("HDL", "increased cardiovascular risk", "Low HDL cholesterol levels can increase the risk of heart disease. Consult with a healthcare provider for further evaluation."),
  ("Iron", "iron deficiency anemia or chronic blood loss", "Low iron levels can cause anemia, fatigue, and weakness. Consult with a healthcare provider for further evaluation.")
]

/-- Data table transcribed from the dict indications in get_expanded_high_indication (conditions, details). -/
def expandedHighIndications : List (String × String × String) := [
  ("RBC", "polycythemia vera, dehydration, lung diseases, smoking, high altitude, or erythrocytosis", "Elevated red blood cells increase blood viscosity and can impair circulation, increasing risk of clots. Primary polycythemia (bone marrow disorder) should be distinguished from secondary causes like hypoxia."),
  ("WBC", "infection, inflammation, stress, or certain types of cancer", "High white blood cells can indicate an infection or a weakened immune system. Consult with a healthcare provider for further evaluation."),
  ("Hb", "polycythemia, dehydration, or lung disease", "High hemoglobin levels can cause symptoms like shortness of breath, fatigue, and chest pain. Consult with a healthcare provider for further evaluation."),
  ("HCT", "polycythemia, dehydration, or certain lung conditions", "High hematocrit levels can indicate polycythemia, dehydration, or certain lung conditions. Consult with a healthcare provider for further evaluation."),
  ("PLT", "infection, inflammation, or certain disorders", "High platelets can increase the risk of blood clots. Consult with a healthcare provider for further evaluation."),
  ("Glucose", "diabetes, stress, certain medications, or pancreatic issues", "High blood sugar levels can cause symptoms like frequent urination, thirst, and increased appetite. Consult with a healthcare provider for further evaluation."),
  ("Creatinine", "kidney problems, muscle breakdown, or dehydration", "High creatinine levels can indicate kidney problems, muscle breakdown, or dehydration. Consult with a healthcare provider for further evaluation."),
  ("BUN", "kidney problems, dehydration, high protein diet, or gastrointestinal bleeding", "High blood urea nitrogen levels can indicate kidney problems, dehydration, high protein diet, or gastrointestinal bleeding. Consult with a healthcare provider for further evaluation."),
  ("Sodium", "dehydration, diabetes insipidus, or excessive salt intake", "High sodium levels can cause symptoms like swelling, thirst, and confusion. Consult with a healthcare provider for further evaluation."),
  ("Potassium", "kidney disease, certain medications, or cell damage", "High potassium levels can cause symptoms like muscle weakness, irregular heartbeat, or heart problems. Consult with a healthcare provider for further evaluation."),
  ("Total Bilirubin", "liver problems, bile duct obstruction, or certain types of anemia", "High total bilirubin levels can indicate liver problems, bile duct obstruction, or certain types of anemia. Consult with a healthcare provider for further evaluation."),
  ("ALT", "liver damage, hepatitis, or certain medications", "High alanine transaminase levels can indicate liver damage, hepatitis, or certain medications. Consult with a healthcare provider for further evaluation."),
  ("AST", "liver damage, muscle injury, or heart problems", "High aspartate transaminase levels can indicate liver damage, muscle injury, or heart problems. Consult with a healthcare provider for further evaluation."),
  ("Cholesterol", "increased cardiovascular risk, genetic conditions, or poor diet", "High cholesterol levels can increase the risk of heart disease. Consult with a healthcare provider for further evaluation."),
  ("Triglycerides", "increased cardiovascular risk, diabetes, obesity, or alcohol consumption", "High triglyceride levels can increase the risk of heart disease. Consult with a healthcare provider for further evaluation."),
  ("LDL", "increased cardiovascular risk", "High LDL cholesterol levels can increase the risk of heart disease. Consult with a healthcare provider for further evaluation."),
  ("TSH", "hypothyroidism or thyroid medication issues", "High thyroid-stimulating hormone levels can indicate hypothyroidism or thyroid medication issues. Consult with a healthcare provider for further evaluation."),
  ("CRP", "inflammation, infection, or tissue damage", "High C-reactive protein levels can indicate inflammation, infection, or tissue damage. Consult with a healthcare provider for further evaluation.")
]

/-- Class helpers for the concrete patterns. -/
def spC : RE := .star isSpaceC

def sp1C : RE := .plus isSpaceC

def optColon : RE := .opt (· = cc ':')

def ciIs (c : Char) : Nat → Bool := fun d => lowc d = cc c

/-- Elements an alias compiles to under `re.IGNORECASE`.  The listed special
cases are the aliases containing regex metacharacters; all other aliases are
plain literals.  `Ca++`/`Mg++` use Python ≥ 3.11 possessive repetition,
which agrees with greedy repetition in these patterns. -/
def aliasREs (a : String) : List RE :=
  let ca := cs a
  if ca = cs "Na+" then [.lit (cs "N") true, .plus (ciIs 'a')]
  else if ca = cs "K+" then [.plus (ciIs 'k')]
  else if ca = cs "Ca++" then [.lit (cs "C") true, .plus (ciIs 'a')]
  else if ca = cs "Mg++" then [.lit (cs "M") true, .plus (ciIs 'g')]
  else if ca = cs "Est. GFR" then
    [.lit (cs "Est") true, .cls (· ≠ 10), .lit (cs " GFR") true]
  else if ca = cs "T. Chol" then
    [.lit (cs "T") true, .cls (· ≠ 10), .lit (cs " Chol") true]
  else if ca = cs "25(OH)D" then [.lit (cs "25OHD") true]
  else [.lit ca true]

/-- Interpolating `25(OH)D` inserts a parenthesised group before the numeric
group, so `group(1)` of the patterns where the alias precedes the number is
the constant `"OH"`. -/
def aliasShift (a : String) : Option String :=
  if cs a = cs "25(OH)D" then some "OH" else none

/-- The four inline patterns of the alias scan, in the order the source ors
them: `alias\s*:?\s*(num)`, `alias\s*=\s*(num)`, `alias\s+(num)`,
`(num)\s+alias`. -/
def pats1to4 (a : String) : List Pat :=
  let ar := aliasREs a
  let sh := aliasShift a
  [ { pre := ar ++ [spC, optColon, spC], constCap := sh },
    { pre := ar ++ [spC, .cls (· = cc '='), spC], constCap := sh },
    { pre := ar ++ [sp1C], constCap := sh },
    { pre := [], post := sp1C :: ar } ]

/-- Elements a catalog name compiles to in the case-sensitive scans
(`re.search` without flags); `Lp(a)`-style names contain a group. -/
def nameREcs (s : String) : List RE :=
  let ns := cs s
  if ns = cs "Lp(a)" then [.lit (cs "Lpa") false]
  else if ns = cs "lp(a)" then [.lit (cs "lpa") false]
  else if ns = cs "Lipoprotein(a)" then [.lit (cs "Lipoproteina") false]
  else [.lit ns false]

def nameShift (s : String) : Option String :=
  if cs s = cs "Lp(a)" || cs s = cs "lp(a)" || cs s = cs "Lipoprotein(a)"
  then some "a" else none

/-- Pattern `fr'{name}\s*:?\s*(\d+\.?\d*)'` of the canonical-name scan. -/
def canonPat (s : String) : Pat :=
  { pre := nameREcs s ++ [spC, optColon, spC], constCap := nameShift s }

/-- Text the interpolated name actually matches in `\b{name}\b` (parentheses
are a regex group, not literal text). -/
def needleOf (s : String) : Chars :=
  let ns := cs s
  if ns = cs "Lp(a)" then cs "Lpa"
  else if ns = cs "Lipoprotein(a)" then cs "Lipoproteina"
  else ns

/-- The eight primary hemoglobin patterns of `find_hemoglobin`, searched with
`re.IGNORECASE`, in source order. -/
def hbPatterns : List Pat :=
  [ { pre := [.lit (cs "Hemoglobin") true, spC, optColon, spC],
      post := [spC, .lit (cs "g") true, .opt (· = cc '/'), .opt (ciIs 'd'), .opt (ciIs 'l')] },
    { pre := [.lit (cs "Hb") true, spC, optColon, spC],
      post := [spC, .lit (cs "g") true, .opt (· = cc '/'), .opt (ciIs 'd'), .opt (ciIs 'l')] },
    { pre := [.lit (cs "HGB") true, spC, optColon, spC] },
    { pre := [.lit (cs "Hemoglobin") true, .star (fun c => !isDigitC c)],
      post := [spC, .lit (cs "g") true] },
    { pre := [.lit (cs "Hb") true, .star (fun c => !isDigitC c)],
      post := [spC, .lit (cs "g") true] },
    { pre := [.lit (cs "hemoglobin") true, .plus (fun c => isSpaceC c || c = cc ':' || c = cc '=')] },
    { pre := [],
      post := [spC, .lit (cs "g") true, .opt (· = cc '/'), .opt (ciIs 'd'), .cls (ciIs 'l'),
               spC, .lit (cs "hemoglobin") true] },
    { pre := [],
      post := [spC, .lit (cs "g") true, .opt (· = cc '/'), .opt (ciIs 'd'), .cls (ciIs 'l'),
               spC, .lit (cs "hb") true] } ]

/-- The two g/L hemoglobin patterns, searched case-sensitively
(`re.search(pattern, text)` with no flag), with a `\d{3}` capture. -/
def hbGLPatterns : List Pat :=
  [ { pre := [.cls (fun c => c = cc 'H' || c = cc 'h'), .lit (cs "emoglobin") false, spC, optColon, spC],
      three := true,
      post := [spC, .cls (· = cc 'g'), .opt (· = cc '/'), .cls (fun c => c = cc 'l' || c = cc 'L')] },
    { pre := [.cls (fun c => c = cc 'H' || c = cc 'h'), .lit (cs "b") false, spC, optColon, spC],
      three := true,
      post := [spC, .cls (· = cc 'g'), .opt (· = cc '/'), .cls (fun c => c = cc 'l' || c = cc 'L')] } ]

/-- First primary pattern whose first match parses and lies in the 5–25
band; an out-of-band or unparseable first match moves on to the next
pattern, exactly as the source loop does. -/
def hbScanPats (ps : List Pat) (t : Chars) : Option ℚ :=
  match ps with
  | [] => none
  | p :: rest =>
    match searchPatFrom p t with
    | some tok =>
      match pyFloat tok with
      | some v => if 5 ≤ v ∧ v ≤ 25 then some v else hbScanPats rest t
      | none => hbScanPats rest t
    | none => hbScanPats rest t

/-- G/L pass: a first match in the 100–200 band is returned divided by 10. -/
def hbGLScan (ps : List Pat) (t : Chars) : Option ℚ :=
  match ps with
  | [] => none
  | p :: rest =>
    match searchPatFrom p t with
    | some tok =>
      match pyFloat tok with
      | some v => if 100 ≤ v ∧ v ≤ 200 then some (v / 10) else hbGLScan rest t
      | none => hbGLScan rest t
    | none => hbGLScan rest t

/-- Line filter `re.search(r'[Hh]emoglobin|[Hh]b\b|[Hh][Gg][Bb]', line, re.IGNORECASE)`. -/
def hbLineCond (line : Chars) : Bool :=
  containsCI "hemoglobin" line || hbWordB line || containsCI "hgb" line

/-- Scan the numbers of a line against both hemoglobin bands, in order. -/
def hbNums (ns : List Chars) : Option ℚ :=
  match ns with
  | [] => none
  | n :: rest =>
    match pyFloat n with
    | some v =>
      if 5 ≤ v ∧ v ≤ 25 then some v
      else if 100 ≤ v ∧ v ≤ 200 then some (v / 10)
      else hbNums rest
    | none => hbNums rest

def hbLineScan (ls : List Chars) : Option ℚ :=
  match ls with
  | [] => none
  | line :: rest =>
    if hbLineCond line then
      match hbNums (findNumbers line) with
      | some v => some v
      | none => hbLineScan rest
    else hbLineScan rest

/-- Embedding of `find_hemoglobin`. -/
def find_hemoglobin (text : String) : Option ℚ :=
  match hbScanPats hbPatterns (cs text) with
  | some v => some v
  | none =>
    match hbGLScan hbGLPatterns (cs text) with
    | some v => some v
    | none => hbLineScan (splitNL (cs text))

/-- The fourteen WBC patterns of `find_wbc`, searched with `re.IGNORECASE`,
in source order. -/
def wbcPatterns : List Pat :=
  [ { pre := [.lit (cs "White") true, spC, .lit (cs "Blood") true, spC, .lit (cs "Cell") true, spC,
              .lit (cs "Count") true, spC, optColon, spC] },
    { pre := [.lit (cs "White") true, spC, .lit (cs "Blood") true, spC, .lit (cs "Cell") true,
              .opt (ciIs 's'), spC, optColon, spC] },
    { pre := [.lit (cs "WBC") true, spC, optColon, spC] },
    { pre := [.lit (cs "WBC") true, .star (fun c => !isDigitC c)] },
    { pre := [.lit (cs "Leukocyte") true, .opt (ciIs 's'), spC, optColon, spC] },
    { pre := [.lit (cs "Total") true, spC, .lit (cs "Leukocyte") true, spC, .lit (cs "Count") true,
              spC, optColon, spC] },
    { pre := [.lit (cs "TLC") true, spC, optColon, spC] },
    { pre := [],
      post := [spC, .opt (ciIs 'k'), .cls (· = cc '/'), .cls (fun c => c = cc 'μ' || c = cc 'µ'),
               .cls (ciIs 'l'), spC, .lit (cs "WBC") true] },
    { pre := [],
      post := [spC, .opt (ciIs 'k'), .cls (· = cc '/'), .cls (fun c => c = cc 'μ' || c = cc 'µ'),
               .cls (ciIs 'l'), spC, .lit (cs "White") true, spC, .lit (cs "Blood") true, spC,
               .lit (cs "Cells") true] },
    { pre := [],
      post := [spC, .opt (ciIs 'k'), .cls (· = cc '/'), .cls (fun c => c = cc 'μ' || c = cc 'µ'),
               .cls (ciIs 'l'), spC, .lit (cs "Leukocytes") true] },
    { pre := [],
      post := [spC, .lit (cs "10^3") true, .cls (· = cc '/'), .cls (fun c => c = cc 'μ' || c = cc 'µ'),
               .cls (ciIs 'l'), spC, .lit (cs "WBC") true] },
    { pre := [],
      post := [spC, .lit (cs "10^3") true, .cls (· = cc '/'), .cls (fun c => c = cc 'μ' || c = cc 'µ'),
               .cls (ciIs 'l'), spC, .lit (cs "White") true, spC, .lit (cs "Cells") true] },
    { pre := [.lit (cs "WBC") true, .plus (fun c => isSpaceC c || c = cc ':' || c = cc '=')] },
    { pre := [.lit (cs "Leukocyte") true, .opt (ciIs 's'),
              .plus (fun c => isSpaceC c || c = cc ':' || c = cc '=')] } ]

/-- First WBC pattern whose first match parses into the 0.5–50 band (the
source's second `elif` band is identical and therefore unreachable). -/
def wbcScanPats (ps : List Pat) (t : Chars) : Option ℚ :=
  match ps with
  | [] => none
  | p :: rest =>
    match searchPatFrom p t with
    | some tok =>
      match pyFloat tok with
      | some v => if 0.5 ≤ v ∧ v ≤ 50 then some v else wbcScanPats rest t
      | none => wbcScanPats rest t
    | none => wbcScanPats rest t

def whiteBloodCellREs : List RE :=
  [.lit (cs "White") true, spC, .lit (cs "Blood") true, spC, .lit (cs "Cell") true]

/-- Line filter of the WBC per-line scan (includes `TLC`). -/
def wbcLineCond (line : Chars) : Bool :=
  containsCI "wbc" line || searchBool whiteBloodCellREs line ||
    containsCI "leukocyte" line || containsCI "tlc" line

/-- Line filter of the WBC next-line scan (no `TLC` branch). -/
def wbcLineCond2 (line : Chars) : Bool :=
  containsCI "wbc" line || searchBool whiteBloodCellREs line ||
    containsCI "leukocyte" line

def wbcNums (ns : List Chars) : Option ℚ :=
  match ns with
  | [] => none
  | n :: rest =>
    match pyFloat n with
    | some v => if 0.5 ≤ v ∧ v ≤ 50 then some v else wbcNums rest
    | none => wbcNums rest

def wbcLineScan (ls : List Chars) : Option ℚ :=
  match ls with
  | [] => none
  | line :: rest =>
    if wbcLineCond line then
      match wbcNums (findNumbers line) with
      | some v => some v
      | none => wbcLineScan rest
    else wbcLineScan rest

/-- Tabular pass of `find_wbc`: a matching line followed by a line whose
numbers contain a plausible value (`i < len(lines) - 1`). -/
def wbcNextLineScan (ls : List Chars) : Option ℚ :=
  match ls with
  | [] => none
  | [_] => none
  | line :: next :: rest =>
    if wbcLineCond2 line then
      match wbcNums (findNumbers next) with
      | some v => some v
      | none => wbcNextLineScan (next :: rest)
    else wbcNextLineScan (next :: rest)

/-- Embedding of `find_wbc`. -/
def find_wbc (text : String) : Option ℚ :=
  match wbcScanPats wbcPatterns (cs text) with
  | some v => some v
  | none =>
    match wbcLineScan (splitNL (cs text)) with
    | some v => some v
    | none => wbcNextLineScan (splitNL (cs text))

/-- Dict lookup in the result mapping. -/
def rlookup (k : String) (m : RMap) : Option ℚ := List.lookup k m

/-- Python `str.lower` (ASCII), as a kernel-computable definition. -/
def pyLower (s : String) : String := ⟨s.data.map Char.toLower⟩

/-- First stage of `extract_blood_values`: the dedicated critical-value
finders.  `if hb_value:` / `if wbc_value:` test Python truthiness, so a
`0.0` result would be skipped. -/
def dedicatedStage (text : String) : RMap :=
  let m : RMap :=
    match find_hemoglobin text with
    | some v => if v = 0 then [] else dinsert [] "Hb" v
    | none => []
  match find_wbc text with
  | some v => if v = 0 then m else dinsert m "WBC" v
  | none => m

/-- Line after the first occurrence of `line` in the split text
(`text.split('\n').index(line) + 1`); `none` when the match is the last
line.  In every call `line` is an element of `ls`, so the `ValueError`
branch of `.index` cannot occur. -/
def nextLineAfterFirst (ls : List Chars) (line : Chars) : Option Chars :=
  let i := ls.indexOf line
  if i + 1 < ls.length then ls.get? (i + 1) else none

/-- Pattern 5 of the alias scan: the stripped line equals the alias
(case-sensitively) and the following line starts with `^\s*(\d+\.?\d*)`. -/
def aliasPattern5 (ls : List Chars) (line : Chars) (ac : Chars) : Option ℚ :=
  if stripC line = ac then
    match nextLineAfterFirst ls line with
    | some nl =>
      match matchPatAt { pre := [spC] } nl with
      | some tok => pyFloat tok
      | none => none
    | none => none
  else none

/-- A case-insensitive substring that every successful match of the alias
patterns 1–4 must contain (`aliasGuard_sound` below): the text of the first
literal of `aliasREs` (for `K+`, the character its leading `+` repeats).
Purely an evaluation shortcut for the alias loop. -/
def aliasNeedle (a : String) : Chars :=
  let ca := cs a
  if ca = cs "Na+" then cs "N"
  else if ca = cs "K+" then cs "K"
  else if ca = cs "Ca++" then cs "C"
  else if ca = cs "Mg++" then cs "M"
  else if ca = cs "Est. GFR" then cs "Est"
  else if ca = cs "T. Chol" then cs "T"
  else if ca = cs "25(OH)D" then cs "25OHD"
  else ca

/-- The alias table with each alias compiled to its code points, its needle
and its four inline patterns; hoisted into one constant because Python's
`re` module caches compiled patterns, so pattern compilation happens once
per alias. -/
def aliasTable : List (String × List (Chars × Chars × List Pat)) :=
  alternative_names.map
    (fun p => (p.1, p.2.map (fun a => (cs a, aliasNeedle a, pats1to4 a))))

/-- Alias loop for one test on one line: pattern 5, then patterns 1–4; a
match whose captured group fails `float` falls through to the next alias
(`except ValueError: pass`), a successful parse assigns and breaks.  The
needle guard skips an alias only when pattern 5 and patterns 1–4 are all
bound to fail (`aliasGuard_sound`). -/
def tryAliases (ls : List Chars) (line : Chars) (test : String)
    (aliases : List (Chars × Chars × List Pat)) (m : RMap) : RMap :=
  match aliases with
  | [] => m
  | (ac, nd, pats) :: rest =>
    if stripC line = ac || containsCIc nd line then
      match aliasPattern5 ls line ac with
      | some v => dinsert m test v
      | none =>
        match searchPats pats line with
        | some tok =>
          match pyFloat tok with
          | some v => dinsert m test v
          | none => tryAliases ls line test rest m
        | none => tryAliases ls line test rest m
    else tryAliases ls line test rest m

/-- Test loop of the alias scan on one line.  Only `Hb` is skipped when
already resolved; and the loop over tests stops at the first test that is
present in the results — even when that presence predates this line. -/
def aliasTestsGo (ls : List Chars) (line : Chars) (m : RMap) :
    List (String × List (Chars × Chars × List Pat)) → RMap
  | [] => m
  | (test, aliases) :: rest =>
    if test == "Hb" && containsKey m "Hb" then aliasTestsGo ls line m rest
    else
      let m' := tryAliases ls line test aliases m
      if containsKey m' test then m' else aliasTestsGo ls line m' rest

/-- Second stage: alias-driven line scanning (skipping blank lines). -/
def aliasStage (text : String) (m : RMap) : RMap :=
  let ls := splitNL (cs text)
  ls.foldl
    (fun m line =>
      if (stripC line).isEmpty then m else aliasTestsGo ls line m aliasTable)
    m

/-- Line loop of the canonical-name scan for one unresolved test: the first
line where one of the three patterns matches with a parseable group
assigns and breaks; an unparseable group moves to the next line. -/
def canonLines (ps : List Pat) (test : String) (m : RMap) : List Chars → RMap
  | [] => m
  | line :: rest =>
    match searchPats ps line with
    | some tok =>
      match pyFloat tok with
      | some v => dinsert m test v
      | none => canonLines ps test m rest
    | none => canonLines ps test m rest

/-- The canonical-name patterns (name, lower-cased name, display name) per
test, hoisted for the same pattern-cache reason as `aliasTable`. -/
def canonTable : List (String × List Pat) :=
  BLOOD_TEST_CORPUS.map
    (fun p => (p.1, [canonPat p.1, canonPat (pyLower p.1), canonPat p.2]))

/-- Third stage: scan for the codes' own names and display names
(case-sensitively: `re.search` without flags). -/
def canonicalStage (text : String) (m : RMap) : RMap :=
  let ls := splitNL (cs text)
  canonTable.foldl
    (fun m p => if containsKey m p.1 then m else canonLines p.2 p.1 m ls)
    m

/-- Window `text[max(0, i-50) : min(len(text), i+100)]` around index `i`. -/
def windowOf (text : Chars) (ti : ℕ) : Chars :=
  (text.drop (ti - 50)).take (min text.length (ti + 100) - (ti - 50))

/-- Position of the term inside its window (`term_index - window_start`). -/
def termPosInWindow (ti : ℕ) : ℕ := ti - (ti - 50)

/-- Distance used by the proximity fallback: from `window.find(num_str)` —
the first occurrence of the token's text in the window, `-1` when absent —
to the term position. -/
def distMeasured (window : Chars) (tp : ℕ) (tok : Chars) : ℕ :=
  ((match findSub window tok with
    | some p => (p : ℤ)
    | none => -1) - (tp : ℤ)).natAbs

/-- Fold of the closest-number loop: keeps the token with the strictly
smallest measured distance, first token winning ties. -/
def closestLoop (window : Chars) (tp : ℕ) :
    List Chars → Option Chars × ℕ → Option Chars × ℕ
  | [], acc => acc
  | n :: rest, (cur, md) =>
    let d := distMeasured window tp n
    if (match cur with | none => true | some _ => d < md) then
      closestLoop window tp rest (some n, d)
    else closestLoop window tp rest (cur, md)

/-- Token accepted by the proximity fallback for one term: the closest
number in the window around the term's first (case-insensitive) occurrence,
accepted only when the measured distance is below 50. -/
def proxTokenAccepted (text : Chars) (term : String) : Option Chars :=
  match findSub (text.map lowc) ((cs term).map lowc) with
  | none => none
  | some ti =>
    let window := windowOf text ti
    let nums := findNumbers window
    if nums.isEmpty then none
    else
      match closestLoop window (termPosInWindow ti) nums (none, 0) with
      | (some cn, d) => if ¬ cn.isEmpty ∧ d < 50 then some cn else none
      | (none, _) => none

/-- Textual association of the proximity fallback:
`term.lower() in full_name.lower() or term.lower() == test.lower()`. -/
def termMatches (term test disp : String) : Bool :=
  containsSub ((cs disp).map lowc) ((cs term).map lowc) ||
    (cs term).map lowc == (cs test).map lowc

/-- Corpus loop of the proximity fallback for one term. -/
def proxTests (text : Chars) (term : String) (m : RMap) :
    List (String × String) → RMap
  | [] => m
  | (test, disp) :: rest =>
    if containsKey m test then proxTests text term m rest
    else if termMatches term test disp then
      proxTests text term (tryInsert m test ((proxTokenAccepted text term).bind pyFloat))
        rest
    else proxTests text term m rest

/-- Fourth stage: the NLTK-driven proximity fallback; gated once on
`len(results) < 10`. -/
def proximityStage (terms : List String) (text : String) (m : RMap) : RMap :=
  if m.length < 10 then
    terms.foldl (fun m term => proxTests (cs text) term m BLOOD_TEST_CORPUS) m
  else m

/-- Index `line.lower().find(test.lower())` as the Python `int` (`-1` when
absent; that happens when only the display name matched, and the slice then
starts at `len(test) - 1`). -/
def tabFindIdx (lline : Chars) (tlow : Chars) : ℤ :=
  match findSub lline tlow with
  | some i => (i : ℤ)
  | none => -1

/-- Needles of the tabular scan per test: whole-word needles of the code and
the display name, and the lowered code (`test.lower()`), hoisted like the
pattern tables. -/
def tabTable : List (String × Chars × Chars × Chars) :=
  BLOOD_TEST_CORPUS.map
    (fun p => (p.1, needleOf p.1, needleOf p.2, (cs p.1).map lowc))

/-- One tabular-scan step: whole-word match of the code or its display name
on the line, preferring the first number of
`line[line.lower().find(test.lower()) + len(test):]`, else the last number
of the whole line (`lline` is the lowered line). -/
def tabLine (line lline : Chars) (test : String) (ndT ndD tlow : Chars)
    (m : RMap) : RMap :=
  if wholeWordCI ndT line || wholeWordCI ndD line then
    match findNumbers (line.drop (tabFindIdx lline tlow + test.length).toNat) with
    | rn :: _ => tryInsert m test (pyFloat rn)
    | [] =>
      match (findNumbers line).getLast? with
      | some ln => tryInsert m test (pyFloat ln)
      | none => m
  else m

def tabTests (line lline : Chars) (m : RMap) :
    List (String × Chars × Chars × Chars) → RMap
  | [] => m
  | (test, ndT, ndD, tlow) :: rest =>
    if containsKey m test then tabTests line lline m rest
    else tabTests line lline (tabLine line lline test ndT ndD tlow m) rest

/-- Fifth stage: tabular fallback over every line. -/
def tabularStage (text : String) (m : RMap) : RMap :=
  (splitNL (cs text)).foldl
    (fun m line => tabTests line (line.map lowc) m tabTable) m

/-- Embedding of `extract_blood_values`.  `terms` is the `medical_terms`
list that `simple_nlp_processing` (the external NLTK tagger) computes for
this text; the source calls it inline, the embedding receives it as an
argument. -/
def extract_blood_values (terms : List String) (text : String) : RMap :=
  tabularStage text
    (proximityStage terms text
      (canonicalStage text
        (aliasStage text
          (dedicatedStage text))))

/-- External NLP collaborators of the source (NLTK tokenizers, stop-word
corpus, POS tagger, and the optional transformers summarization pipeline),
passed to the embedding as oracles. -/
structure NLPEnv where
  sentTok : String → List String
  wordTok : String → List String
  stopList : List String
  posTag : List String → List (String × String)
  transformersAvailable : Bool := false
  transformerSumm : String → Option String := fun _ => none

/-- Result of `simple_nlp_processing`. -/
structure NLPInfo where
  sentences : List String
  medical_terms : List String
  numbers : List ℚ

/-- Embedding of `simple_nlp_processing`: stop-word filtering, then the
tagger, keeping nouns longer than 3 characters as medical terms and
parseable `CD` tokens as numbers. -/
def simple_nlp_processing (env : NLPEnv) (text : String) : NLPInfo :=
  let words := env.wordTok text
  let filtered := words.filter (fun w => !(env.stopList.contains (pyLower w)))
  let tags := env.posTag filtered
  { sentences := env.sentTok text
    medical_terms :=
      (tags.filter (fun p =>
        (litMatch (cs "N") false (cs p.2)).isSome && p.1.length > 3)).map (·.1)
    numbers := tags.filterMap (fun p => if p.2 == "CD" then pyFloat (cs p.1) else none) }

/-- Status of an out-of-range value. -/
inductive VStatus where
  | low
  | high
deriving DecidableEq

/-- One entry of the abnormal-values list.  The source formats it as the
string `f"{test} ({name}) is low: {value} {unit}"`; the embedding keeps the
interpolated fields structured (the rendering of `value` through `str` is
the only part abstracted away). -/
structure Abnormal where
  test : String
  name : String
  value : ℚ
  unit : String
  status : VStatus
deriving DecidableEq

/-- Python `BLOOD_TEST_CORPUS.get(test, test)`. -/
def corpusGet (test : String) : String :=
  (List.lookup test BLOOD_TEST_CORPUS).getD test

/-- Embedding of `get_low_indication`. -/
def get_low_indication (test : String) : String :=
  (List.lookup test lowIndications).getD "various medical conditions"

/-- Embedding of `get_high_indication`. -/
def get_high_indication (test : String) : String :=
  (List.lookup test highIndications).getD "various medical conditions"

/-- Embedding of `get_expanded_low_indication` (conditions, details). -/
def get_expanded_low_indication (test : String) : String × String :=
  (List.lookup test expandedLowIndications).getD
    ("various medical conditions requiring further clinical correlation",
     "Abnormal values should be interpreted in the context of your overall health, symptoms, and other test results. Consult with a healthcare provider for proper diagnosis.")

/-- Embedding of `get_expanded_high_indication` (conditions, details). -/
def get_expanded_high_indication (test : String) : String × String :=
  (List.lookup test expandedHighIndications).getD
    ("various medical conditions requiring further clinical correlation",
     "Abnormal values should be interpreted in the context of your overall health, symptoms, and other test results. Consult with a healthcare provider for proper diagnosis.")

/-- Embedding of `analyze_blood_results`: one pass over the extracted
values in order, appending an abnormal entry and an insight line for each
value strictly outside its reference range. -/
def analyze_blood_results : RMap → List Abnormal × List String
  | [] => ([], [])
  | (test, v) :: rest =>
    let tl := analyze_blood_results rest
    match List.lookup test NORMAL_RANGES with
    | some (lo, hi, u) =>
      if v < lo then
        (⟨test, corpusGet test, v, u, .low⟩ :: tl.1,
         ("Low " ++ test ++ " may indicate " ++ get_low_indication test) :: tl.2)
      else if hi < v then
        (⟨test, corpusGet test, v, u, .high⟩ :: tl.1,
         ("High " ++ test ++ " may indicate " ++ get_high_indication test) :: tl.2)
      else tl
    | none => tl

/-- Test for membership of a code in some panel other than `Other`
(`any(test in tests for _, tests in categories.items() if _ != "Other")`). -/
def inAnyPanel (t : String) : Bool :=
  bloodCategories.any (fun c => c.1 != "Other" && c.2.contains t)

/-- Bucket of one panel: the panel's test codes that appear in the results,
in panel-list order, with their values. -/
def panelBucket (results : RMap) (tests : List String) : RMap :=
  tests.filterMap (fun t => (List.lookup t results).map (fun v => (t, v)))

/-- Embedding of `categorize_blood_tests`: per-panel buckets in table
order, empty buckets omitted, then the still-unassigned codes as `Other`. -/
def categorize_blood_tests (results : RMap) : List (String × RMap) :=
  let main := bloodCategories.filterMap (fun c =>
    if (panelBucket results c.2).isEmpty then none
    else some (c.1, panelBucket results c.2))
  let other := results.filter (fun p => !inAnyPanel p.1)
  if other.isEmpty then main else main ++ [("Other", other)]

/-- Python `str.isalnum()` (true when nonempty and every character is
alphanumeric). -/
def pyIsAlnum (w : String) : Bool := !(cs w).isEmpty && (cs w).all isAlnumC

/-- Word-frequency dict of the summarizer, in first-seen order. -/
def wordFreqCounts (ws : List String) : List (String × ℕ) :=
  ws.foldl
    (fun acc w =>
      if acc.any (fun p => p.1 == w) then
        acc.map (fun p => if p.1 == w then (p.1, p.2 + 1) else p)
      else acc ++ [(w, 1)])
    []

/-- `max(word_frequencies.values()) if word_frequencies else 1`. -/
def maxFreq (fs : List (String × ℕ)) : ℕ :=
  if fs.isEmpty then 1 else fs.foldl (fun a p => max a p.2) 0

/-- Normalised frequencies over the filtered words of the text. -/
def normalizedFreqs (env : NLPEnv) (text : String) : List (String × ℚ) :=
  let words := env.wordTok (pyLower text)
  let filtered := words.filter (fun w => !(env.stopList.contains (pyLower w)) && pyIsAlnum w)
  let fs := wordFreqCounts filtered
  fs.map (fun p => (p.1, (p.2 : ℚ) / (maxFreq fs : ℚ)))

/-- Score of one sentence: the sum of the frequencies of its words, or
`none` when no word of the sentence is in the frequency dict (such a
sentence never enters `sentence_scores`). -/
def sentScore (env : NLPEnv) (freqs : List (String × ℚ)) (sent : String) : Option ℚ :=
  (env.wordTok (pyLower sent)).foldl
    (fun acc w =>
      match List.lookup w freqs with
      | some f => some ((acc.getD 0) + f)
      | none => acc)
    none

/-- The `(score, index)` pairs of `sentence_scores.items()`, in index
order. -/
def sentenceScorePairs (env : NLPEnv) (text : String) : List (ℚ × ℕ) :=
  let freqs := normalizedFreqs env text
  ((env.sentTok text).enum).filterMap
    (fun p => (sentScore env freqs p.2).map (fun sc => (sc, p.1)))

/-- Descending lexicographic order on `(score, index)` pairs:
`sorted(..., reverse=True)`. -/
def descLex (a b : ℚ × ℕ) : Prop := b.1 < a.1 ∨ (b.1 = a.1 ∧ b.2 ≤ a.2)

instance : DecidableRel descLex := fun _ _ =>
  inferInstanceAs (Decidable (_ ∨ _))

/-- Ranked sentence list of the summarizer. -/
def rankedPairs (env : NLPEnv) (text : String) : List (ℚ × ℕ) :=
  List.insertionSort descLex (sentenceScorePairs env text)

/-- Indices of the selected top sentences, before re-sorting. -/
def topSentenceIndices (env : NLPEnv) (text : String) (num : ℕ) : List ℕ :=
  ((rankedPairs env text).take num).map (·.2)

/-- Python `" ".join(…)`. -/
def joinSp (l : List String) : String :=
  ⟨List.intercalate " ".data (l.map String.data)⟩

/-- Embedding of `simple_text_summarization`. -/
def simple_text_summarization (env : NLPEnv) (text : String) (num : ℕ := 5) : String :=
  let sentences := env.sentTok text
  if sentences.length ≤ num then joinSp sentences
  else
    joinSp
      ((List.insertionSort (· ≤ ·) (topSentenceIndices env text num)).map
        (fun i => sentences.getD i ""))

/-- Python `s.split(ch)` for a single-character separator. -/
def splitChGo (sep : Char) (acc : List Char) (s : List Char) : List (List Char) :=
  match s with
  | [] => [acc.reverse]
  | c :: rest =>
    if c = sep then acc.reverse :: splitChGo sep [] rest else splitChGo sep (c :: acc) rest

def pySplitSp (s : String) : List String :=
  (splitChGo ' ' [] s.data).map (fun l => ⟨l⟩)

def pyStartsWith (p s : String) : Bool := (litMatch (cs p) false (cs s)).isSome

/-- Grouping dict `test_insights` of `summarize_report`: test name to the
statuses seen for it, in insertion order. -/
def addStatus (acc : List (String × List String)) (name st : String) :
    List (String × List String) :=
  if acc.any (fun p => p.1 == name) then
    acc.map (fun p => if p.1 == name then (p.1, p.2 ++ [st]) else p)
  else acc ++ [(name, [st])]

def testInsightsOf (insights : List String) : List (String × List String) :=
  insights.foldl
    (fun acc ins =>
      if pyStartsWith "Low " ins then addStatus acc ((pySplitSp ins).getD 1 "") "Low"
      else if pyStartsWith "High " ins then addStatus acc ((pySplitSp ins).getD 1 "") "High"
      else acc)
    []

/-- One row of the implication table. -/
def insightRow (name st : String) : String :=
  let info := if st == "Low" then get_expanded_low_indication name
              else get_expanded_high_indication name
  "| **" ++ name ++ "** (" ++ corpusGet name ++ ") | " ++ st ++ " | " ++
    info.1 ++ " | " ++ info.2 ++ " |\n"

/-- Embedding of `summarize_report`.  The transformers pipeline is an
oracle; its `Exception` is `none`, handled by falling back to
`simple_text_summarization(text)` (default 5 sentences), while short texts
or an unavailable pipeline use `simple_text_summarization(text, 3)`. -/
def summarize_report (env : NLPEnv) (text : String) (_extracted : RMap)
    (_abnormal : List Abnormal) (insights : List String) : String :=
  let summary :=
    if text.length > 1000 && env.transformersAvailable then
      match env.transformerSumm ⟨text.data.take 4000⟩ with
      | some s => s
      | none => simple_text_summarization env text 5
    else simple_text_summarization env text 3
  let full := "\n    ## Blood Report Summary\n\n    " ++ summary ++ "\n    "
  if insights.isEmpty then full
  else
    let header := full ++ "\n### Possible Health Implications\n" ++
      "\n| Test | Status | Possible Conditions | Clinical Significance |\n|------|--------|-------------------|----------------------|\n"
    let ti := testInsightsOf insights
    let names := List.insertionSort (· ≤ ·) (ti.map (·.1))
    names.foldl
      (fun acc name =>
        if (List.lookup name NORMAL_RANGES).isSome then
          ((List.lookup name ti).getD []).foldl
            (fun acc st => acc ++ insightRow name st) acc
        else acc)
      header

/-- Successful result record of `process_file`. -/
structure AnalysisOk where
  extracted_values : RMap
  abnormal_values : List Abnormal
  insights : List String
  summary : String
  categorized_results : List (String × RMap)

/-- Result of `process_file`: either the error record `{"error": msg}` (and
nothing else), or the full report record. -/
inductive ProcResult where
  | error (msg : String)
  | ok (r : AnalysisOk)

/-- Embedding of `process_file` from the point where the OCR collaborators
have produced `text` (the OCR itself, `pytesseract`/`pdf2image`, is outside
the core and outside this embedding). -/
def process_file (env : NLPEnv) (text : String) : ProcResult :=
  if text == "" then .error "Failed to extract text from the file."
  else
    let nlp := simple_nlp_processing env text
    let ev := extract_blood_values nlp.medical_terms text
    if ev.isEmpty then .error "No blood test values were detected."
    else
      let analyzed := analyze_blood_results ev
      .ok
        { extracted_values := ev
          abnormal_values := analyzed.1
          insights := analyzed.2
          summary := summarize_report env text ev analyzed.1 analyzed.2
          categorized_results := categorize_blood_tests ev }

set_option maxRecDepth 1000000

/-- Soundness of the scan shortcut: a position ruled out by `quickOk`
carries no match, so `searchPatFrom` agrees with plain `re.search`. -/
lemma quickOk_sound (p : Pat) (input : Chars) (h : quickOk p input = false) :
    matchPatAt p input = none := by
  unfold quickOk at h
  unfold matchPatAt
  cases hpre : p.pre with
  | nil =>
    rw [hpre] at h
    unfold matchREs matchNum
    cases input with
    | nil => rw [if_pos (by cases p.three <;> decide)]
    | cons b bs =>
      simp only [] at h
      rw [show List.takeWhile isDigitC (b :: bs) = [] by
        simp [List.takeWhile_cons, h]]
      rw [if_pos (by cases p.three <;> decide)]
  | cons e rest =>
    rw [hpre] at h
    cases e with
    | lit t ci =>
      cases t with
      | nil => simp at h
      | cons a as =>
        unfold matchREs
        cases input with
        | nil => rfl
        | cons b bs =>
          simp only [] at h
          simp only []
          have hlm : litMatch (a :: as) ci (b :: bs) = none := by
            unfold litMatch
            cases ci with
            | true => rw [if_neg (by simpa using h)]
            | false => rw [if_neg (by simpa using h)]
          rw [hlm]
    | cls q =>
      unfold matchREs
      cases input with
      | nil => rfl
      | cons b bs =>
        simp only [] at h
        simp only []
        rw [if_neg (by simp [h])]
    | plus q =>
      unfold matchREs
      cases input with
      | nil => rfl
      | cons b bs =>
        simp only [] at h
        simp only []
        rw [if_neg (by simp [h])]
    | opt q => simp at h
    | star q => simp at h

lemma litMatch_suffix {t : Chars} {ci : Bool} {input s : Chars}
    (h : litMatch t ci input = some s) : s <:+ input := by
  induction t generalizing input with
  | nil =>
    simp only [litMatch] at h
    cases h
    exact List.suffix_refl _
  | cons a as ih =>
    cases input with
    | nil => simp [litMatch] at h
    | cons b bs =>
      simp only [litMatch] at h
      by_cases hc : (if ci = true then lowc a = lowc b else a = b)
      · rw [if_pos hc] at h
        exact (ih h).trans (List.suffix_cons b bs)
      · rw [if_neg hc] at h
        simp at h

lemma tryDropsDesc_sfx {input : Chars} {n : ℕ} {k : Chars → Option Chars}
    {r : Chars} (h : tryDropsDesc input n k = some r) :
    ∃ s, s <:+ input ∧ k s = some r := by
  induction n with
  | zero => exact ⟨input, List.suffix_refl _, h⟩
  | succ m ih =>
    unfold tryDropsDesc at h
    cases hk : k (input.drop (Nat.succ m)) with
    | some r' =>
      rw [hk] at h
      cases h
      exact ⟨input.drop (Nat.succ m), List.drop_suffix _ _, hk⟩
    | none => rw [hk] at h; exact ih h

lemma matchREs_sfx {es : List RE} {input : Chars} {k : Chars → Option Chars}
    {r : Chars} (h : matchREs es input k = some r) :
    ∃ s, s <:+ input ∧ k s = some r := by
  induction es generalizing input with
  | nil => exact ⟨input, List.suffix_refl _, h⟩
  | cons e rest ih =>
    cases e with
    | cls p =>
      cases input with
      | nil => simp [matchREs] at h
      | cons c s =>
        simp only [matchREs] at h
        split at h
        · obtain ⟨s', hs', hk⟩ := ih h
          exact ⟨s', hs'.trans (List.suffix_cons c s), hk⟩
        · simp at h
    | lit t ci =>
      simp only [matchREs] at h
      cases hl : litMatch t ci input with
      | some s =>
        rw [hl] at h
        obtain ⟨s', hs', hk⟩ := ih h
        exact ⟨s', hs'.trans (litMatch_suffix hl), hk⟩
      | none => rw [hl] at h; simp at h
    | opt p =>
      cases input with
      | nil => simp only [matchREs] at h; exact ih h
      | cons c s =>
        simp only [matchREs] at h
        split at h
        · cases hm : matchREs rest s k with
          | some r' =>
            rw [hm] at h
            cases h
            obtain ⟨s', hs', hk⟩ := ih hm
            exact ⟨s', hs'.trans (List.suffix_cons c s), hk⟩
          | none => rw [hm] at h; exact ih h
        · exact ih h
    | star p =>
      simp only [matchREs] at h
      obtain ⟨s, hs, hm⟩ := tryDropsDesc_sfx h
      obtain ⟨s', hs', hk⟩ := ih hm
      exact ⟨s', hs'.trans hs, hk⟩
    | plus p =>
      cases input with
      | nil => simp [matchREs] at h
      | cons c s =>
        simp only [matchREs] at h
        split at h
        · obtain ⟨s1, hs1, hm⟩ := tryDropsDesc_sfx h
          obtain ⟨s', hs', hk⟩ := ih hm
          exact ⟨s', (hs'.trans hs1).trans (List.suffix_cons c s), hk⟩
        · simp at h

lemma tryFracDesc_sfx {ds ds2 afterDot : Chars} {j : ℕ}
    {k : Chars → Chars → Option Chars} {r : Chars}
    (h : tryFracDesc ds ds2 afterDot j k = some r) :
    ∃ tok s, s <:+ afterDot ∧ k tok s = some r := by
  induction j with
  | zero =>
    unfold tryFracDesc at h
    exact ⟨_, _, List.drop_suffix _ _, h⟩
  | succ m ih =>
    unfold tryFracDesc at h
    cases hk : k (ds ++ cc '.' :: ds2.take (Nat.succ m)) (afterDot.drop (Nat.succ m)) with
    | some r' =>
      rw [hk] at h
      cases h
      exact ⟨_, _, List.drop_suffix _ _, hk⟩
    | none => rw [hk] at h; exact ih h

lemma tryIntDesc_sfx {input : Chars} {minLen : ℕ} {i : ℕ}
    {k : Chars → Chars → Option Chars} {r : Chars}
    (h : tryIntDesc input minLen i k = some r) :
    ∃ tok s, s <:+ input ∧ k tok s = some r := by
  induction i with
  | zero =>
    unfold tryIntDesc at h
    split at h
    · simp at h
    · exact ⟨_, _, List.drop_suffix _ _, h⟩
  | succ m ih =>
    unfold tryIntDesc at h
    split at h
    · simp at h
    · cases hk : k (input.take (Nat.succ m)) (input.drop (Nat.succ m)) with
      | some r' =>
        rw [hk] at h
        cases h
        exact ⟨_, _, List.drop_suffix _ _, hk⟩
      | none => rw [hk] at h; exact ih h

lemma matchNumFrac_sfx {input : Chars} {k : Chars → Chars → Option Chars}
    {r : Chars} (h : matchNumFrac input k = some r) :
    ∃ tok s, s <:+ input ∧ k tok s = some r := by
  unfold matchNumFrac at h
  cases hdrop : input.drop (input.takeWhile isDigitC).length with
  | nil => rw [hdrop] at h; simp at h
  | cons c r2 =>
    rw [hdrop] at h
    simp only [] at h
    split at h
    · obtain ⟨tok, s, hs, hk⟩ := tryFracDesc_sfx h
      have hr2 : r2 <:+ input :=
        (List.suffix_cons c r2).trans (hdrop ▸ List.drop_suffix _ _)
      exact ⟨tok, s, hs.trans hr2, hk⟩
    · simp at h

lemma matchNum_sfx {three : Bool} {input : Chars}
    {k : Chars → Chars → Option Chars} {r : Chars}
    (h : matchNum three input k = some r) :
    ∃ tok s, s <:+ input ∧ k tok s = some r := by
  unfold matchNum at h
  by_cases hg : (input.takeWhile isDigitC).length < (if three = true then 3 else 1)
  · rw [if_pos hg] at h
    simp at h
  · rw [if_neg hg] at h
    cases hf : matchNumFrac input k with
    | some r' =>
      rw [hf] at h
      cases h
      exact matchNumFrac_sfx hf
    | none =>
      rw [hf] at h
      exact tryIntDesc_sfx h

/-- A leading atom that forces the needle: the sequence starts with the
needle as a case-insensitive literal, or with a `+`-repetition every
accepted character of which already matches the needle. -/
def HeadNeedle (es : List RE) (nd : Chars) : Prop :=
  (∃ rest, es = .lit nd true :: rest) ∨
  (∃ q rest, es = .plus q :: rest ∧
    ∀ c s, q c = true → (litMatch nd true (c :: s)).isSome)

lemma matchREs_head_needle {es : List RE} {nd : Chars} {input : Chars}
    {k : Chars → Option Chars} {r : Chars}
    (hh : HeadNeedle es nd) (h : matchREs es input k = some r) :
    ∃ s, s <:+ input ∧ (litMatch nd true s).isSome := by
  rcases hh with ⟨rest, hes⟩ | ⟨q, rest, hes, hq⟩
  · subst hes
    simp only [matchREs] at h
    cases hl : litMatch nd true input with
    | some s => exact ⟨input, List.suffix_refl _, by rw [hl]; rfl⟩
    | none => rw [hl] at h; simp at h
  · subst hes
    cases input with
    | nil => simp [matchREs] at h
    | cons c s =>
      simp only [matchREs] at h
      split at h
      · next hc => exact ⟨c :: s, List.suffix_refl _, hq c s hc⟩
      · simp at h

/-- The needle property of a whole pattern: its `pre` starts with the
needle, or (`(num)\s+alias` shape) its `pre` is empty and its `post` is a
whitespace `+` followed by a needle-headed tail. -/
def PatNeedle (p : Pat) (nd : Chars) : Prop :=
  HeadNeedle p.pre nd ∨
  (p.pre = [] ∧ ∃ tail, p.post = sp1C :: tail ∧ HeadNeedle tail nd)

lemma matchPatAt_needle {p : Pat} {nd : Chars} {input tok : Chars}
    (hp : PatNeedle p nd) (h : matchPatAt p input = some tok) :
    ∃ s, s <:+ input ∧ (litMatch nd true s).isSome := by
  unfold matchPatAt at h
  rcases hp with hh | ⟨hpre, tail, hpost, hh⟩
  · exact matchREs_head_needle hh h
  · rw [hpre] at h
    simp only [matchREs] at h
    obtain ⟨tk, s2, hs2, hk⟩ := matchNum_sfx h
    rw [hpost] at hk
    show ∃ s, s <:+ input ∧ (litMatch nd true s).isSome
    have hsp : sp1C = RE.plus isSpaceC := rfl
    rw [hsp] at hk
    cases s2 with
    | nil => simp [matchREs] at hk
    | cons c s3 =>
      simp only [matchREs] at hk
      split at hk
      · obtain ⟨s4, hs4, hm⟩ := tryDropsDesc_sfx hk
        obtain ⟨s5, hs5, hlit⟩ := matchREs_head_needle hh hm
        exact ⟨s5, (((hs5.trans hs4).trans (List.suffix_cons c s3)).trans hs2), hlit⟩
      · simp at hk

lemma containsCIc_of_lit {nd s line : Chars} (hsfx : s <:+ line)
    (h : (litMatch nd true s).isSome) : containsCIc nd line = true := by
  induction line with
  | nil =>
    have hs : s = [] := List.eq_nil_of_suffix_nil hsfx
    subst hs
    simpa [containsCIc] using h
  | cons c rest ih =>
    rcases List.suffix_cons_iff.mp hsfx with hs | hs
    · subst hs
      simp only [containsCIc]
      rw [Bool.or_eq_true]
      exact Or.inl h
    · simp only [containsCIc]
      rw [Bool.or_eq_true]
      exact Or.inr (ih hs)

lemma searchPatFrom_needle {p : Pat} {nd : Chars} {line tok : Chars}
    (hp : PatNeedle p nd) (h : searchPatFrom p line = some tok) :
    containsCIc nd line = true := by
  induction line with
  | nil =>
    simp only [searchPatFrom] at h
    cases hs : searchStep p [] with
    | some t =>
      have hm : matchPatAt p [] = some t := by
        unfold searchStep at hs
        split at hs
        · exact hs
        · simp at hs
      obtain ⟨s, hsfx, hlit⟩ := matchPatAt_needle hp hm
      exact containsCIc_of_lit hsfx hlit
    | none => rw [hs] at h; simp at h
  | cons c rest ih =>
    simp only [searchPatFrom] at h
    cases hs : searchStep p (c :: rest) with
    | some t =>
      have hm : matchPatAt p (c :: rest) = some t := by
        unfold searchStep at hs
        split at hs
        · exact hs
        · simp at hs
      obtain ⟨s, hsfx, hlit⟩ := matchPatAt_needle hp hm
      exact containsCIc_of_lit hsfx hlit
    | none =>
      rw [hs] at h
      simp only [containsCIc]
      rw [Bool.or_eq_true]
      exact Or.inr (ih h)

/-- Shape of the compiled alias: its atom list starts with the needle as a
literal, or (for `K+`) is the single `+`-repetition whose characters match
the needle. -/
lemma aliasREs_shape (a : String) :
    (∃ ar', aliasREs a = .lit (aliasNeedle a) true :: ar') ∨
    (aliasREs a = [.plus (ciIs 'k')] ∧ aliasNeedle a = cs "K") := by
  unfold aliasREs aliasNeedle
  by_cases h1 : cs a = cs "Na+"
  · simp only [h1, if_pos rfl]; exact Or.inl ⟨_, rfl⟩
  · simp only [if_neg h1]
    by_cases h2 : cs a = cs "K+"
    · simp only [h2, if_pos rfl]; exact Or.inr ⟨rfl, rfl⟩
    · simp only [if_neg h2]
      by_cases h3 : cs a = cs "Ca++"
      · simp only [h3, if_pos rfl]; exact Or.inl ⟨_, rfl⟩
      · simp only [if_neg h3]
        by_cases h4 : cs a = cs "Mg++"
        · simp only [h4, if_pos rfl]; exact Or.inl ⟨_, rfl⟩
        · simp only [if_neg h4]
          by_cases h5 : cs a = cs "Est. GFR"
          · simp only [h5, if_pos rfl]; exact Or.inl ⟨_, rfl⟩
          · simp only [if_neg h5]
            by_cases h6 : cs a = cs "T. Chol"
            · simp only [h6, if_pos rfl]; exact Or.inl ⟨_, rfl⟩
            · simp only [if_neg h6]
              by_cases h7 : cs a = cs "25(OH)D"
              · simp only [h7, if_pos rfl]; exact Or.inl ⟨_, rfl⟩
              · simp only [if_neg h7]; exact Or.inl ⟨_, rfl⟩

lemma kplus_needle : ∀ c s, ciIs 'k' c = true → (litMatch (cs "K") true (c :: s)).isSome := by
  intro c s hc
  have h2 : lowc c = cc 'k' := by
    unfold ciIs at hc
    exact of_decide_eq_true hc
  have hcc : lowc c = 107 := by rw [h2]; rfl
  show (litMatch [75] true (c :: s)).isSome
  simp only [litMatch]
  have hcond : (if True then lowc 75 = lowc c else (75 : ℕ) = c) := by
    rw [if_pos trivial, hcc]
    rfl
  rw [if_pos hcond]
  rfl

lemma headNeedle_app (a : String) (x : List RE) :
    HeadNeedle (aliasREs a ++ x) (aliasNeedle a) := by
  rcases aliasREs_shape a with ⟨ar', har⟩ | ⟨har, hnd⟩
  · rw [har]
    exact Or.inl ⟨_, rfl⟩
  · rw [har, hnd]
    exact Or.inr ⟨_, _, rfl, kplus_needle⟩

lemma headNeedle_plain (a : String) :
    HeadNeedle (aliasREs a) (aliasNeedle a) := by
  rcases aliasREs_shape a with ⟨ar', har⟩ | ⟨har, hnd⟩
  · rw [har]
    exact Or.inl ⟨_, rfl⟩
  · rw [har, hnd]
    exact Or.inr ⟨_, _, rfl, kplus_needle⟩

/-- Soundness of the alias-scan needle guard: when the needle occurs
nowhere in the line (case-insensitively), none of the four inline patterns
can match, so skipping the searches cannot change the scan's result. -/
lemma aliasGuard_sound (a : String) (line : Chars)
    (h : containsCIc (aliasNeedle a) line = false) :
    searchPats (pats1to4 a) line = none := by
  have hof : ∀ (p : Pat), PatNeedle p (aliasNeedle a) →
      searchPatFrom p line = none := by
    intro p hp
    cases hs : searchPatFrom p line with
    | none => rfl
    | some tok =>
      rw [searchPatFrom_needle hp hs] at h
      exact absurd h (by simp)
  have h1 : PatNeedle ⟨aliasREs a ++ [spC, optColon, spC], false, [], aliasShift a⟩
      (aliasNeedle a) := Or.inl (headNeedle_app a _)
  have h2 : PatNeedle ⟨aliasREs a ++ [spC, .cls (· = cc '='), spC], false, [], aliasShift a⟩
      (aliasNeedle a) := Or.inl (headNeedle_app a _)
  have h3 : PatNeedle ⟨aliasREs a ++ [sp1C], false, [], aliasShift a⟩
      (aliasNeedle a) := Or.inl (headNeedle_app a _)
  have h4 : PatNeedle ⟨[], false, sp1C :: aliasREs a, none⟩ (aliasNeedle a) :=
    Or.inr ⟨rfl, _, rfl, headNeedle_plain a⟩
  show searchPats
    [⟨aliasREs a ++ [spC, optColon, spC], false, [], aliasShift a⟩,
     ⟨aliasREs a ++ [spC, .cls (· = cc '='), spC], false, [], aliasShift a⟩,
     ⟨aliasREs a ++ [sp1C], false, [], aliasShift a⟩,
     ⟨[], false, sp1C :: aliasREs a, none⟩] line = none
  simp only [searchPats]
  rw [hof _ h1, hof _ h2, hof _ h3, hof _ h4]

lemma lookup_map_replace (m : RMap) (k k' : String) (v : ℚ) (h : k' ≠ k) :
    List.lookup k' (m.map (fun p => if p.1 == k then (k, v) else p)) =
      List.lookup k' m := by
  induction m with
  | nil => rfl
  | cons a tl ih =>
    simp only [List.map_cons]
    by_cases hak : a.1 = k
    · rw [if_pos (beq_iff_eq.mpr hak)]
      simp only [List.lookup, beq_eq_false_iff_ne.mpr h,
        beq_eq_false_iff_ne.mpr (hak ▸ h)]
      exact ih
    · rw [if_neg (by simpa using hak)]
      cases hka : (k' == a.1) with
      | true => simp [List.lookup, hka]
      | false => simp only [List.lookup, hka]; exact ih

lemma lookup_append_single_ne (m : RMap) (k k' : String) (v : ℚ) (h : k' ≠ k) :
    List.lookup k' (m ++ [(k, v)]) = List.lookup k' m := by
  induction m with
  | nil => simp [List.lookup, beq_eq_false_iff_ne.mpr h]
  | cons a tl ih =>
    cases hka : (k' == a.1) with
    | true => simp [List.lookup, hka]
    | false => simp only [List.cons_append, List.lookup, hka]; exact ih

lemma lookup_dinsert_ne (m : RMap) (k k' : String) (v : ℚ) (h : k' ≠ k) :
    List.lookup k' (dinsert m k v) = List.lookup k' m := by
  unfold dinsert
  by_cases hc : containsKey m k
  · rw [if_pos hc]; exact lookup_map_replace m k k' v h
  · rw [if_neg hc]; exact lookup_append_single_ne m k k' v h

lemma containsKey_of_lookup {m : RMap} {k : String} {v : ℚ}
    (h : List.lookup k m = some v) : containsKey m k = true := by
  induction m with
  | nil => simp [List.lookup] at h
  | cons a tl ih =>
    cases hka : (k == a.1) with
    | true =>
      simp only [containsKey, List.any_cons, Bool.or_eq_true]
      exact Or.inl (by rw [beq_iff_eq] at hka ⊢; exact hka.symm)
    | false =>
      simp only [List.lookup, hka] at h
      simp only [containsKey, List.any_cons, Bool.or_eq_true]
      exact Or.inr (ih h)

lemma ne_of_lookup_not_containsKey {m : RMap} {c test : String} {v : ℚ}
    (h : List.lookup c m = some v) (hnc : containsKey m test = false) : test ≠ c := by
  intro he
  rw [he] at hnc
  rw [containsKey_of_lookup h] at hnc
  exact Bool.true_eq_false.mp hnc

lemma tryInsert_result (m : RMap) (test : String) (v? : Option ℚ) :
    tryInsert m test v? = m ∨ ∃ v, tryInsert m test v? = dinsert m test v := by
  cases v? with
  | some v => exact Or.inr ⟨v, rfl⟩
  | none => exact Or.inl rfl

lemma tryAliases_result (ls : List Chars) (line : Chars) (test : String)
    (aliases : List (Chars × Chars × List Pat)) (m : RMap) :
    tryAliases ls line test aliases m = m ∨
      ∃ v, tryAliases ls line test aliases m = dinsert m test v := by
  induction aliases with
  | nil => exact Or.inl rfl
  | cons a rest ih =>
    obtain ⟨ac, nd, pats⟩ := a
    unfold tryAliases
    by_cases hg : (decide (stripC line = ac) || containsCIc nd line) = true
    · rw [if_pos hg]
      cases h5 : aliasPattern5 ls line ac with
      | some v => exact Or.inr ⟨v, rfl⟩
      | none =>
        cases hs : searchPats pats line with
        | some tok =>
          simp only []
          cases hf : pyFloat tok with
          | some v => exact Or.inr ⟨v, by simp [hf]⟩
          | none => simpa [hf] using ih
        | none => exact ih
    · rw [if_neg hg]
      exact ih

lemma canonLines_result (ps : List Pat) (test : String) (m : RMap) (lines : List Chars) :
    canonLines ps test m lines = m ∨
      ∃ v, canonLines ps test m lines = dinsert m test v := by
  induction lines with
  | nil => exact Or.inl rfl
  | cons line rest ih =>
    unfold canonLines
    cases hs : searchPats ps line with
    | some tok =>
      simp only []
      cases hf : pyFloat tok with
      | some v => exact Or.inr ⟨v, by simp [hf]⟩
      | none => simpa [hf] using ih
    | none => exact ih

lemma tabLine_result (line lline : Chars) (test : String) (ndT ndD tlow : Chars)
    (m : RMap) :
    tabLine line lline test ndT ndD tlow m = m ∨
      ∃ v, tabLine line lline test ndT ndD tlow m = dinsert m test v := by
  unfold tabLine
  by_cases hw : (wholeWordCI ndT line || wholeWordCI ndD line) = true
  · rw [if_pos hw]
    cases h1 : findNumbers (line.drop (tabFindIdx lline tlow + test.length).toNat) with
    | cons rn tl => exact tryInsert_result m test (pyFloat rn)
    | nil =>
      cases h2 : (findNumbers line).getLast? with
      | some ln => exact tryInsert_result m test (pyFloat ln)
      | none => exact Or.inl rfl
  · rw [if_neg hw]; exact Or.inl rfl

/-- Alias scanning never touches a resolved `Hb` entry: the test loop skips
`Hb` when it is present, and every other test writes only its own key. -/
lemma aliasTestsGo_preserves_Hb (ls : List Chars) (line : Chars)
    (table : List (String × List (Chars × Chars × List Pat))) (m : RMap) (v : ℚ)
    (h : List.lookup "Hb" m = some v) :
    List.lookup "Hb" (aliasTestsGo ls line m table) = some v := by
  induction table generalizing m with
  | nil => exact h
  | cons e rest ih =>
    obtain ⟨test, aliases⟩ := e
    unfold aliasTestsGo
    by_cases ht : test = "Hb"
    · subst ht
      simp only [beq_self_eq_true, Bool.true_and, containsKey_of_lookup h, if_true]
      exact ih m h
    · rw [show (test == "Hb" && containsKey m "Hb") = false by
        simp [beq_eq_false_iff_ne.mpr ht]]
      simp only [Bool.false_eq_true, if_false]
      have hpres : List.lookup "Hb" (tryAliases ls line test aliases m) = some v := by
        rcases tryAliases_result ls line test aliases m with he | ⟨w, he⟩
        · rw [he]; exact h
        · rw [he, lookup_dinsert_ne _ _ _ _ (Ne.symm ht)]; exact h
      by_cases hck : containsKey (tryAliases ls line test aliases m) test
      · rw [if_pos hck]; exact hpres
      · rw [if_neg hck]; exact ih _ hpres

lemma aliasStage_preserves_Hb (text : String) (m : RMap) (v : ℚ)
    (h : List.lookup "Hb" m = some v) :
    List.lookup "Hb" (aliasStage text m) = some v := by
  unfold aliasStage
  generalize splitNL (cs text) = ls
  suffices hgen : ∀ (ls' : List Chars) (m : RMap), List.lookup "Hb" m = some v →
      List.lookup "Hb"
        (List.foldl (fun m line =>
          if (stripC line).isEmpty then m else aliasTestsGo ls line m aliasTable)
          m ls') =
        some v from hgen ls m h
  intro ls'
  induction ls' with
  | nil => intro m h; exact h
  | cons line rest ih =>
    intro m h
    rw [List.foldl_cons]
    by_cases hb : (stripC line).isEmpty
    · rw [if_pos hb]; exact ih m h
    · rw [if_neg hb]; exact ih _ (aliasTestsGo_preserves_Hb ls line aliasTable m v h)

/-- The canonical-name scan claims only unresolved codes, so every resolved
entry survives it unchanged. -/
lemma canonicalStage_preserves (text : String) (m : RMap) (c : String) (v : ℚ)
    (h : List.lookup c m = some v) :
    List.lookup c (canonicalStage text m) = some v := by
  unfold canonicalStage
  suffices hgen : ∀ (table : List (String × List Pat)) m, List.lookup c m = some v →
      List.lookup c
        (table.foldl (fun m p =>
          if containsKey m p.1 then m
          else canonLines p.2 p.1 m (splitNL (cs text))) m) = some v from
    hgen canonTable m h
  intro table
  induction table with
  | nil => intro m h; exact h
  | cons e rest ih =>
    intro m h
    simp only [List.foldl_cons]
    by_cases hck : containsKey m e.1
    · rw [if_pos hck]; exact ih m h
    · rw [if_neg hck]
      refine ih _ ?_
      rcases canonLines_result e.2 e.1 m (splitNL (cs text)) with he | ⟨w, he⟩
      · rw [he]; exact h
      · rw [he, lookup_dinsert_ne _ _ _ _ (ne_of_lookup_not_containsKey h
          (Bool.not_eq_true _ ▸ hck)).symm]
        exact h

lemma proxTests_preserves (text : Chars) (term : String)
    (corpus : List (String × String)) (m : RMap) (c : String) (v : ℚ)
    (h : List.lookup c m = some v) :
    List.lookup c (proxTests text term m corpus) = some v := by
  induction corpus generalizing m with
  | nil => exact h
  | cons e rest ih =>
    obtain ⟨test, disp⟩ := e
    unfold proxTests
    by_cases hck : containsKey m test
    · rw [if_pos hck]; exact ih m h
    · rw [if_neg hck]
      by_cases htm : termMatches term test disp
      · rw [if_pos htm]
        refine ih _ ?_
        rcases tryInsert_result m test ((proxTokenAccepted text term).bind pyFloat)
            with he | ⟨w, he⟩
        · rw [he]; exact h
        · rw [he, lookup_dinsert_ne _ _ _ _ (ne_of_lookup_not_containsKey h
            (Bool.not_eq_true _ ▸ hck)).symm]
          exact h
      · rw [if_neg htm]; exact ih m h

lemma proximityStage_preserves (terms : List String) (text : String) (m : RMap)
    (c : String) (v : ℚ) (h : List.lookup c m = some v) :
    List.lookup c (proximityStage terms text m) = some v := by
  unfold proximityStage
  by_cases hl : m.length < 10
  · rw [if_pos hl]
    clear hl
    induction terms generalizing m with
    | nil => exact h
    | cons t rest ih =>
      simp only [List.foldl_cons]
      exact ih _ (proxTests_preserves (cs text) t BLOOD_TEST_CORPUS m c v h)
  · rw [if_neg hl]; exact h

lemma tabTests_preserves (line lline : Chars)
    (table : List (String × Chars × Chars × Chars))
    (m : RMap) (c : String) (v : ℚ) (h : List.lookup c m = some v) :
    List.lookup c (tabTests line lline m table) = some v := by
  induction table generalizing m with
  | nil => exact h
  | cons e rest ih =>
    obtain ⟨test, ndT, ndD, tlow⟩ := e
    unfold tabTests
    by_cases hck : containsKey m test
    · rw [if_pos hck]; exact ih m h
    · rw [if_neg hck]
      refine ih _ ?_
      rcases tabLine_result line lline test ndT ndD tlow m with he | ⟨w, he⟩
      · rw [he]; exact h
      · rw [he, lookup_dinsert_ne _ _ _ _ (ne_of_lookup_not_containsKey h
          (Bool.not_eq_true _ ▸ hck)).symm]
        exact h

lemma tabularStage_preserves (text : String) (m : RMap) (c : String) (v : ℚ)
    (h : List.lookup c m = some v) :
    List.lookup c (tabularStage text m) = some v := by
  unfold tabularStage
  generalize splitNL (cs text) = ls
  induction ls generalizing m with
  | nil => exact h
  | cons line rest ih =>
    simp only [List.foldl_cons]
    exact ih _ (tabTests_preserves line (line.map lowc) tabTable m c v h)

lemma lookup_map_replace_self (m : RMap) (k : String) (v : ℚ)
    (hc : containsKey m k = true) :
    List.lookup k (m.map (fun p => if p.1 == k then (k, v) else p)) = some v := by
  induction m with
  | nil => simp [containsKey] at hc
  | cons a tl ih =>
    simp only [containsKey, List.any_cons, Bool.or_eq_true] at hc
    simp only [List.map_cons]
    by_cases hak : a.1 = k
    · rw [if_pos (beq_iff_eq.mpr hak)]; simp [List.lookup]
    · rw [if_neg (by simpa using hak)]
      have htl : List.lookup k (tl.map (fun p => if p.1 == k then (k, v) else p)) = some v := by
        rcases hc with hc | hc
        · exact absurd (beq_iff_eq.mp hc) hak
        · exact ih hc
      have hka : (k == a.1) = false := beq_eq_false_iff_ne.mpr (fun he => hak he.symm)
      simp only [List.lookup, hka]
      exact htl

lemma lookup_dinsert_self (m : RMap) (k : String) (v : ℚ) :
    List.lookup k (dinsert m k v) = some v := by
  unfold dinsert
  by_cases hc : containsKey m k
  · rw [if_pos hc]; exact lookup_map_replace_self m k v hc
  · rw [if_neg hc]
    induction m with
    | nil => simp [List.lookup]
    | cons a tl ih =>
      simp only [containsKey, List.any_cons, Bool.or_eq_true, not_or] at hc
      have hka : (k == a.1) = false :=
        beq_eq_false_iff_ne.mpr (fun he =>
          hc.1 (by rw [he]; exact beq_self_eq_true a.1))
      simp only [List.cons_append, List.lookup, hka]
      exact ih hc.2

lemma hbScanPats_range (ps : List Pat) (t : Chars) (v : ℚ)
    (h : hbScanPats ps t = some v) : 5 ≤ v ∧ v ≤ 25 := by
  induction ps with
  | nil => simp [hbScanPats] at h
  | cons p rest ih =>
    unfold hbScanPats at h
    cases hs : searchPatFrom p t with
    | some tok =>
      simp only [hs] at h
      cases hf : pyFloat tok with
      | some w =>
        simp only [hf] at h
        by_cases hb : 5 ≤ w ∧ w ≤ 25
        · rw [if_pos hb] at h; cases h; exact hb
        · rw [if_neg hb] at h; exact ih h
      | none => simp only [hf] at h; exact ih h
    | none => simp only [hs] at h; exact ih h

lemma hbGLScan_range (ps : List Pat) (t : Chars) (v : ℚ)
    (h : hbGLScan ps t = some v) : 10 ≤ v ∧ v ≤ 20 := by
  induction ps with
  | nil => simp [hbGLScan] at h
  | cons p rest ih =>
    unfold hbGLScan at h
    cases hs : searchPatFrom p t with
    | some tok =>
      simp only [hs] at h
      cases hf : pyFloat tok with
      | some w =>
        simp only [hf] at h
        by_cases hb : 100 ≤ w ∧ w ≤ 200
        · rw [if_pos hb] at h
          cases h
          constructor
          · rw [le_div_iff₀ (by norm_num : (0:ℚ) < 10)]; linarith [hb.1]
          · rw [div_le_iff₀ (by norm_num : (0:ℚ) < 10)]; linarith [hb.2]
        · rw [if_neg hb] at h; exact ih h
      | none => simp only [hf] at h; exact ih h
    | none => simp only [hs] at h; exact ih h

lemma hbNums_range (ns : List Chars) (v : ℚ) (h : hbNums ns = some v) :
    5 ≤ v ∧ v ≤ 25 := by
  induction ns with
  | nil => simp [hbNums] at h
  | cons n rest ih =>
    unfold hbNums at h
    cases hf : pyFloat n with
    | some w =>
      simp only [hf] at h
      by_cases hb : 5 ≤ w ∧ w ≤ 25
      · rw [if_pos hb] at h; cases h; exact hb
      · rw [if_neg hb] at h
        by_cases hb2 : 100 ≤ w ∧ w ≤ 200
        · rw [if_pos hb2] at h
          cases h
          constructor
          · have : (10:ℚ) ≤ w / 10 := by
              rw [le_div_iff₀ (by norm_num : (0:ℚ) < 10)]; linarith [hb2.1]
            linarith
          · have : w / 10 ≤ (20:ℚ) := by
              rw [div_le_iff₀ (by norm_num : (0:ℚ) < 10)]; linarith [hb2.2]
            linarith
        · rw [if_neg hb2] at h; exact ih h
    | none => simp only [hf] at h; exact ih h

lemma hbLineScan_range (ls : List Chars) (v : ℚ) (h : hbLineScan ls = some v) :
    5 ≤ v ∧ v ≤ 25 := by
  induction ls with
  | nil => simp [hbLineScan] at h
  | cons line rest ih =>
    unfold hbLineScan at h
    by_cases hc : hbLineCond line
    · rw [if_pos hc] at h
      cases hn : hbNums (findNumbers line) with
      | some w => simp only [hn] at h; cases h; exact hbNums_range _ _ hn
      | none => simp only [hn] at h; exact ih h
    · rw [if_neg hc] at h; exact ih h

/-- Every value `find_hemoglobin` returns lies in the physiological 5–25
band (g/L matches are rescaled into [10, 20]). -/
lemma find_hemoglobin_range (text : String) (v : ℚ)
    (h : find_hemoglobin text = some v) : 5 ≤ v ∧ v ≤ 25 := by
  unfold find_hemoglobin at h
  cases h1 : hbScanPats hbPatterns (cs text) with
  | some w => simp only [h1] at h; cases h; exact hbScanPats_range _ _ _ h1
  | none =>
    simp only [h1] at h
    cases h2 : hbGLScan hbGLPatterns (cs text) with
    | some w =>
      simp only [h2] at h; cases h
      have := hbGLScan_range _ _ _ h2
      exact ⟨by linarith [this.1], by linarith [this.2]⟩
    | none => simp only [h2] at h; exact hbLineScan_range _ _ h

/-- The dedicated stage records the hemoglobin finder's value under `Hb`
(the Python truthiness test cannot discard it, since the value is ≥ 5). -/
lemma dedicatedStage_Hb (text : String) (v : ℚ)
    (h : find_hemoglobin text = some v) :
    List.lookup "Hb" (dedicatedStage text) = some v := by
  have hv : ¬ v = 0 := by
    have := (find_hemoglobin_range text v h).1
    intro h0; rw [h0] at this; norm_num at this
  unfold dedicatedStage
  simp only [h]
  rw [if_neg hv]
  cases hw : find_wbc text with
  | some w =>
    simp only [hw]
    by_cases hw0 : w = 0
    · rw [if_pos hw0]; exact lookup_dinsert_self _ _ _
    · rw [if_neg hw0]
      rw [lookup_dinsert_ne _ _ _ _ (by decide : ("Hb" : String) ≠ "WBC")]
      exact lookup_dinsert_self _ _ _
  | none => simp only [hw]; exact lookup_dinsert_self _ _ _

set_option maxHeartbeats 16000000

/-- Text of the C1 counterexample. -/
def c1text : String := "WBC: 12.0\nLeukocytes: 7.0"

lemma proximityStage_nil (text : String) (m : RMap) :
    proximityStage [] text m = m := by
  unfold proximityStage
  split <;> rfl

lemma c1ded : dedicatedStage c1text = [("WBC", 12)] := by decide

lemma c1ali : aliasStage c1text [("WBC", 12)] = [("WBC", 7)] := by decide

lemma c1can : canonicalStage c1text [("WBC", 7)] = [("WBC", 7)] := by decide

lemma c1tab : tabularStage c1text [("WBC", 7)] = [("WBC", 7)] := by decide

/-- Claim C1 states that once a code is resolved by a higher-priority
strategy, no lower-priority strategy alters its value.  On `c1text` the
dedicated finder `find_wbc` (highest priority) resolves WBC to 12.0, yet
the returned mapping carries 7.0: the alias scan overwrote it (it checks
resolved-status only for `Hb`). -/
theorem c1_counterexample :
    find_wbc c1text = some 12 ∧
      extract_blood_values [] c1text = [("WBC", 7)] ∧ (7 : ℚ) ≠ 12 := by
  refine ⟨by decide, ?_, by norm_num⟩
  unfold extract_blood_values
  rw [c1ded, c1ali, c1can, proximityStage_nil, c1tab]

/-- Claim C1 amended: the canonical-name scan, the proximity fallback and
the tabular fallback each claim only still-unresolved codes, so they never
alter a resolved value; and a hemoglobin value resolved by the dedicated
finder is never altered by any later strategy (the alias scan checks
resolved-status for `Hb`).  The alias scan may, however, overwrite the
dedicated WBC finder's value (see the counterexample). -/
theorem c1_amended :
    (∀ (terms : List String) (text : String) (m : RMap) (c : String) (v : ℚ),
        List.lookup c m = some v →
        List.lookup c
          (tabularStage text (proximityStage terms text (canonicalStage text m))) =
          some v) ∧
    (∀ (terms : List String) (text : String) (v : ℚ),
        find_hemoglobin text = some v →
        List.lookup "Hb" (extract_blood_values terms text) = some v) := by
  constructor
  · intro terms text m c v h
    exact tabularStage_preserves _ _ _ _
      (proximityStage_preserves _ _ _ _ _ (canonicalStage_preserves _ _ _ _ h))
  · intro terms text v h
    unfold extract_blood_values
    exact tabularStage_preserves _ _ _ _
      (proximityStage_preserves _ _ _ _ _
        (canonicalStage_preserves _ _ _ _
          (aliasStage_preserves_Hb _ _ _ (dedicatedStage_Hb _ _ h))))

theorem c1_amended_witness :
    List.lookup "Hb" (extract_blood_values [] "Hemoglobin: 140 g/L") = some 14 ∧
      List.lookup "X"
        (tabularStage "" (proximityStage [] "" (canonicalStage "" [("X", 1)]))) =
        some 1 :=
  ⟨c1_amended.2 [] "Hemoglobin: 140 g/L" 14 (by decide),
   c1_amended.1 [] "" [("X", 1)] "X" 1 (by decide)⟩

lemma c2ded : dedicatedStage "Hemoglobin: 300 g/dL" = [] := by decide

lemma c2ali : aliasStage "Hemoglobin: 300 g/dL" [] = [("Hb", 300)] := by decide

lemma c2can : canonicalStage "Hemoglobin: 300 g/dL" [("Hb", 300)] = [("Hb", 300)] := by
  decide

lemma c2tab : tabularStage "Hemoglobin: 300 g/dL" [("Hb", 300)] = [("Hb", 300)] := by
  decide

/-- Claim C2 states `extract("Hemoglobin: 300 g/dL")` resolves no Hb entry.
In fact the returned mapping is exactly `{"Hb": 300.0}`: the dedicated
finder rejects 300, but the alias scan has no plausibility filter. -/
theorem c2_counterexample :
    extract_blood_values [] "Hemoglobin: 300 g/dL" = [("Hb", 300)] := by
  unfold extract_blood_values
  rw [c2ded, c2ali, c2can, proximityStage_nil, c2tab]

/-- Claim C2 amended: the dedicated finder `find_hemoglobin` does reject
300 (outside both the 5–25 band and the 100–200 rescale band), but the
alias-scanning strategy applies no plausibility filter and accepts it, so
extraction returns Hb = 300.0. -/
theorem c2_amended :
    find_hemoglobin "Hemoglobin: 300 g/dL" = none ∧
      extract_blood_values [] "Hemoglobin: 300 g/dL" = [("Hb", 300)] :=
  ⟨by decide, by
    unfold extract_blood_values
    rw [c2ded, c2ali, c2can, proximityStage_nil, c2tab]⟩

lemma c3ded : dedicatedStage "Hemoglobin: 140 g/L" = [("Hb", 14)] := by decide

lemma c3ali : aliasStage "Hemoglobin: 140 g/L" [("Hb", 14)] = [("Hb", 14)] := by decide

lemma c3can : canonicalStage "Hemoglobin: 140 g/L" [("Hb", 14)] = [("Hb", 14)] := by
  decide

/-- Claim C3: a hemoglobin candidate whose g/dL patterns fail but that
matches a g/L pattern with a value in the 100–200 band is rescaled by 10:
`extract("Hemoglobin: 140 g/L")` maps Hb to 14.0, whatever terms the
tagger produces. -/
theorem c3_unit_rescale (terms : List String) :
    List.lookup "Hb" (extract_blood_values terms "Hemoglobin: 140 g/L") = some 14 := by
  have h : List.lookup "Hb"
      (canonicalStage "Hemoglobin: 140 g/L"
        (aliasStage "Hemoglobin: 140 g/L" (dedicatedStage "Hemoglobin: 140 g/L"))) =
      some 14 := by
    rw [c3ded, c3ali, c3can]
    rfl
  unfold extract_blood_values
  exact tabularStage_preserves _ _ _ _ (proximityStage_preserves _ _ _ _ _ h)

/-- Claim C9: whenever `find_hemoglobin` returns a value, it lies in
[5, 25] (direct matches by the plausibility filter; g/L matches are
rescaled into [10, 20]). -/
theorem c9_hb_band (text : String) (v : ℚ) (h : find_hemoglobin text = some v) :
    5 ≤ v ∧ v ≤ 25 :=
  find_hemoglobin_range text v h

theorem c9_hb_band_witness :
    find_hemoglobin "Hemoglobin: 14.2" = some 14.2 ∧
      (5 ≤ (14.2 : ℚ) ∧ (14.2 : ℚ) ≤ 25) :=
  ⟨by decide, c9_hb_band "Hemoglobin: 14.2" 14.2 (by decide)⟩

/-- Shape of every token the numeric capture group can produce: a nonempty
digit run, optionally followed by a point and further digits. -/
def NumTokenShape (t : Chars) : Prop :=
  ∃ ds ds2 : Chars, ds ≠ [] ∧ (∀ c ∈ ds, isDigitC c) ∧ (∀ c ∈ ds2, isDigitC c) ∧
    (t = ds ∨ t = ds ++ cc '.' :: ds2)

lemma tryDropsDesc_propagate {input : Chars} {n : ℕ} {k : Chars → Option Chars}
    {r : Chars} (h : tryDropsDesc input n k = some r) : ∃ s, k s = some r := by
  induction n with
  | zero => exact ⟨input, h⟩
  | succ m ih =>
    unfold tryDropsDesc at h
    cases hk : k (input.drop (Nat.succ m)) with
    | some r' => rw [hk] at h; cases h; exact ⟨_, hk⟩
    | none => rw [hk] at h; exact ih h

lemma matchREs_propagate {es : List RE} {input : Chars} {k : Chars → Option Chars}
    {r : Chars} (h : matchREs es input k = some r) : ∃ s, k s = some r := by
  induction es generalizing input with
  | nil => exact ⟨input, h⟩
  | cons e rest ih =>
    cases e with
    | cls p =>
      cases input with
      | nil => simp [matchREs] at h
      | cons c s =>
        simp only [matchREs] at h
        by_cases hp : p c = true
        · rw [if_pos hp] at h; exact ih h
        · rw [if_neg hp] at h; simp at h
    | lit t ci =>
      simp only [matchREs] at h
      cases hl : litMatch t ci input with
      | some s => rw [hl] at h; exact ih h
      | none => rw [hl] at h; simp at h
    | opt p =>
      cases input with
      | nil => simp only [matchREs] at h; exact ih h
      | cons c s =>
        simp only [matchREs] at h
        by_cases hp : p c = true
        · rw [if_pos hp] at h
          cases hm : matchREs rest s k with
          | some r' => rw [hm] at h; cases h; exact ih hm
          | none => rw [hm] at h; exact ih h
        · rw [if_neg hp] at h; exact ih h
    | star p =>
      simp only [matchREs] at h
      obtain ⟨s, hs⟩ := tryDropsDesc_propagate h
      exact ih hs
    | plus p =>
      cases input with
      | nil => simp [matchREs] at h
      | cons c s =>
        simp only [matchREs] at h
        by_cases hp : p c = true
        · rw [if_pos hp] at h
          obtain ⟨s', hs⟩ := tryDropsDesc_propagate h
          exact ih hs
        · rw [if_neg hp] at h; simp at h

lemma tryFracDesc_propagate {ds ds2 afterDot : Chars} {j : ℕ}
    {k : Chars → Chars → Option Chars} {r : Chars}
    (h : tryFracDesc ds ds2 afterDot j k = some r) :
    ∃ j', j' ≤ j ∧ k (ds ++ cc '.' :: ds2.take j') (afterDot.drop j') = some r := by
  induction j with
  | zero => exact ⟨0, le_refl _, h⟩
  | succ m ih =>
    unfold tryFracDesc at h
    cases hk : k (ds ++ cc '.' :: ds2.take (Nat.succ m)) (afterDot.drop (Nat.succ m)) with
    | some r' => rw [hk] at h; cases h; exact ⟨Nat.succ m, le_refl _, hk⟩
    | none =>
      rw [hk] at h
      obtain ⟨j', hj, hk'⟩ := ih h
      exact ⟨j', le_trans hj (Nat.le_succ m), hk'⟩

lemma tryIntDesc_propagate {input : Chars} {minLen i : ℕ}
    {k : Chars → Chars → Option Chars} {r : Chars}
    (h : tryIntDesc input minLen i k = some r) :
    ∃ i', minLen ≤ i' ∧ i' ≤ i ∧ k (input.take i') (input.drop i') = some r := by
  induction i with
  | zero =>
    unfold tryIntDesc at h
    by_cases hm : 0 < minLen
    · rw [if_pos hm] at h; simp at h
    · rw [if_neg hm] at h
      exact ⟨0, by omega, le_refl _, h⟩
  | succ m ih =>
    unfold tryIntDesc at h
    by_cases hm : Nat.succ m < minLen
    · rw [if_pos hm] at h; simp at h
    · rw [if_neg hm] at h
      cases hk : k (input.take (Nat.succ m)) (input.drop (Nat.succ m)) with
      | some r' => rw [hk] at h; cases h; exact ⟨Nat.succ m, by omega, le_refl _, hk⟩
      | none =>
        rw [hk] at h
        obtain ⟨i', h1, h2, hk'⟩ := ih h
        exact ⟨i', h1, le_trans h2 (Nat.le_succ m), hk'⟩
-- end tryIntDesc_propagate

lemma takeWhile_all {p : Nat → Bool} {l : Chars} : ∀ c ∈ l.takeWhile p, p c := by
  intro c hc
  exact List.mem_takeWhile_imp hc

lemma matchNumFrac_shape {input : Chars} {k : Chars → Chars → Option Chars} {r : Chars}
    (hne : input.takeWhile isDigitC ≠ [])
    (h : matchNumFrac input k = some r) :
    ∃ tok rest, k tok rest = some r ∧ NumTokenShape tok := by
  unfold matchNumFrac at h
  cases hdrop : input.drop (input.takeWhile isDigitC).length with
  | nil => rw [hdrop] at h; simp at h
  | cons c r2 =>
    rw [hdrop] at h
    simp only [] at h
    by_cases hc : c = cc '.'
    · rw [if_pos hc] at h
      obtain ⟨j', _, hk⟩ := tryFracDesc_propagate h
      refine ⟨_, _, hk, ?_⟩
      exact ⟨input.takeWhile isDigitC, (r2.takeWhile isDigitC).take j', hne, takeWhile_all,
        fun x hx => takeWhile_all x (List.take_subset _ _ hx), Or.inr rfl⟩
    · rw [if_neg hc] at h; simp at h

lemma matchNum_shape {three : Bool} {input : Chars} {k : Chars → Chars → Option Chars}
    {r : Chars} (h : matchNum three input k = some r) :
    ∃ tok rest, k tok rest = some r ∧ NumTokenShape tok := by
  unfold matchNum at h
  by_cases hlt : (input.takeWhile isDigitC).length < (if three then 3 else 1)
  · rw [if_pos hlt] at h; simp at h
  · rw [if_neg hlt] at h
    have hmin : 1 ≤ (input.takeWhile isDigitC).length := by
      rcases Nat.lt_or_ge (input.takeWhile isDigitC).length 1 with hl | hg
      · exact absurd (by split <;> omega) hlt
      · exact hg
    have hne : input.takeWhile isDigitC ≠ [] := by
      intro he; rw [he] at hmin; simp at hmin
    cases hfrac : matchNumFrac input k with
    | some r' =>
      rw [hfrac] at h
      cases h
      exact matchNumFrac_shape hne hfrac
    | none =>
      rw [hfrac] at h
      obtain ⟨i', h1, h2, hk⟩ := tryIntDesc_propagate h
      have hmin1 : 1 ≤ i' := by
        have h13 : (1 : ℕ) ≤ if three = true then 3 else 1 := by split <;> omega
        exact le_trans h13 h1
      have htake : input.take i' = (input.takeWhile isDigitC).take i' := by
        have hpre : input.take (input.takeWhile isDigitC).length = input.takeWhile isDigitC :=
          (List.prefix_iff_eq_take.mp (List.takeWhile_prefix _)).symm
        rw [← hpre, List.take_take, min_eq_left h2]
      refine ⟨input.take i', _, hk, ?_⟩
      refine ⟨input.take i', [], ?_, ?_, by intro x hx; simp at hx, Or.inl rfl⟩
      · intro he
        have h0 : (input.take i').length = 0 := by rw [he]; rfl
        rw [List.length_take] at h0
        have hil : (input.takeWhile isDigitC).length ≤ input.length :=
          List.IsPrefix.length_le (List.takeWhile_prefix _)
        omega
      · intro x hx
        rw [htake] at hx
        exact takeWhile_all x (List.take_subset _ _ hx)


lemma takeWhile_append_all {p : Nat → Bool} {ds rest : Chars}
    (h : ∀ c ∈ ds, p c) : (ds ++ rest).takeWhile p = ds ++ rest.takeWhile p := by
  induction ds with
  | nil => simp
  | cons c tl ih =>
    have hc : p c = true := h c (List.mem_cons_self c tl)
    simp only [List.cons_append, List.takeWhile_cons, hc, if_true]
    rw [ih (fun x hx => h x (List.mem_cons_of_mem c hx))]

lemma pyFloat_shape {t : Chars} (h : NumTokenShape t) : (pyFloat t).isSome := by
  obtain ⟨ds, ds2, hne, hds, hds2, hcase⟩ := h
  have hdot : isDigitC (cc '.') = false := by decide
  rcases hcase with rfl | rfl
  · have htw : List.takeWhile isDigitC t = t := by
      have h0 := @takeWhile_append_all _ _ ([] : Chars) hds
      simpa using h0
    unfold pyFloat
    simp only [htw, List.drop_length]
    simp [List.isEmpty_iff, hne]
  · have htw : List.takeWhile isDigitC (ds ++ cc '.' :: ds2) = ds := by
      rw [takeWhile_append_all hds]
      simp [List.takeWhile_cons, hdot]
    have htw2 : List.takeWhile isDigitC ds2 = ds2 := by
      have h0 := @takeWhile_append_all _ _ ([] : Chars) hds2
      simpa using h0
    unfold pyFloat
    simp only [htw, List.drop_left, htw2, List.drop_length, List.isEmpty_nil]
    simp [List.isEmpty_iff, hne]

/-- Claim C4: extraction is a total function of its input — the only
fallible steps are the `float(...)` parses, each wrapped in a local
`except ValueError: pass`.  First conjunct: a numeric token captured by an
uninterpolated-group pattern always parses (only the group-shifted
`Lp(a)`-style patterns can capture unparseable text).  Second conjunct: a
failed parse leaves the result mapping unchanged — the candidate counts as
a non-match.  Third conjunct: `extract_blood_values` is defined (returns a
mapping) for every input. -/
theorem c4_no_raise :
    (∀ (p : Pat) (s tok : Chars), p.constCap = none → matchPatAt p s = some tok →
        (pyFloat tok).isSome) ∧
    (∀ (m : RMap) (c : String) (tok : Chars), pyFloat tok = none →
        tryInsert m c (pyFloat tok) = m) ∧
    (∀ (terms : List String) (text : String), ∃ r, extract_blood_values terms text = r) := by
  refine ⟨?_, ?_, fun terms text => ⟨_, rfl⟩⟩
  · intro p s tok hcc h
    unfold matchPatAt at h
    obtain ⟨s1, h1⟩ := matchREs_propagate h
    obtain ⟨tok', rest, h2, hshape⟩ := matchNum_shape h1
    obtain ⟨s', h3⟩ := matchREs_propagate h2
    rw [hcc] at h3
    simp only [] at h3
    cases h3
    exact pyFloat_shape hshape
  · intro m c tok hf
    rw [hf]
    rfl

theorem c4_no_raise_witness :
    (pyFloat (cs "12")).isSome ∧
      tryInsert [] "Lp(a)" (pyFloat (cs "a")) = [] ∧
      ∃ r, extract_blood_values [] "" = r :=
  ⟨c4_no_raise.1 (canonPat "Hb") (cs "Hb: 12") (cs "12") (by decide) (by decide),
   c4_no_raise.2.1 [] "Lp(a)" (cs "a") (by decide),
   c4_no_raise.2.2 [] ""⟩

/-- External-oracle record with inert tokenizers, used by witnesses. -/
def emptyNLPEnv : NLPEnv :=
  { sentTok := fun _ => []
    wordTok := fun _ => []
    stopList := []
    posTag := fun _ => [] }

/-- Claim C7: when text was obtained but extraction yields no values,
`process_file` returns exactly the error record, which by construction
carries no report fields. -/
theorem c7_empty_extraction (env : NLPEnv) (text : String) (h1 : text ≠ "")
    (h2 : extract_blood_values (simple_nlp_processing env text).medical_terms text = []) :
    process_file env text = .error "No blood test values were detected." := by
  unfold process_file
  rw [show (text == "") = false from beq_eq_false_iff_ne.mpr h1]
  simp only [Bool.false_eq_true, if_false, h2, List.isEmpty_nil, if_true]

lemma c7terms : (simple_nlp_processing emptyNLPEnv "x").medical_terms = [] := by decide

lemma c7ded : dedicatedStage "x" = [] := by decide

lemma c7ali : aliasStage "x" [] = [] := by decide

lemma c7can : canonicalStage "x" [] = [] := by decide

lemma c7tab : tabularStage "x" [] = [] := by decide

lemma c7ext :
    extract_blood_values (simple_nlp_processing emptyNLPEnv "x").medical_terms "x" = [] := by
  rw [c7terms]
  unfold extract_blood_values
  rw [c7ded, c7ali, c7can, proximityStage_nil, c7tab]

theorem c7_empty_extraction_witness :
    ("x" : String) ≠ "" ∧
      extract_blood_values (simple_nlp_processing emptyNLPEnv "x").medical_terms "x" = [] ∧
      process_file emptyNLPEnv "x" = .error "No blood test values were detected." :=
  ⟨by decide, c7ext,
   c7_empty_extraction emptyNLPEnv "x" (by decide) c7ext⟩

lemma closestLoop_spec (w : Chars) (tp : ℕ) (ns : List Chars) :
    ∀ (acc : Option Chars × ℕ) (cn : Chars) (d : ℕ),
      closestLoop w tp ns acc = (some cn, d) →
      acc = (some cn, d) ∨ (cn ∈ ns ∧ d = distMeasured w tp cn) := by
  induction ns with
  | nil => intro acc cn d h; exact Or.inl h
  | cons n rest ih =>
    intro acc cn d h
    obtain ⟨cur, md⟩ := acc
    unfold closestLoop at h
    simp only [] at h
    have hnew : closestLoop w tp rest (some n, distMeasured w tp n) = (some cn, d) →
        (cur, md) = (some cn, d) ∨ cn ∈ n :: rest ∧ d = distMeasured w tp cn := by
      intro h'
      rcases ih _ _ _ h' with hacc | ⟨hmem, hd⟩
      · have he1 : some n = some cn := congrArg Prod.fst hacc
        have he2 : distMeasured w tp n = d := congrArg Prod.snd hacc
        cases Option.some.inj he1
        exact Or.inr ⟨List.mem_cons_self n rest, he2.symm⟩
      · exact Or.inr ⟨List.mem_cons_of_mem n hmem, hd⟩
    have hold : closestLoop w tp rest (cur, md) = (some cn, d) →
        (cur, md) = (some cn, d) ∨ cn ∈ n :: rest ∧ d = distMeasured w tp cn := by
      intro h'
      rcases ih _ _ _ h' with hacc | ⟨hmem, hd⟩
      · exact Or.inl hacc
      · exact Or.inr ⟨List.mem_cons_of_mem n hmem, hd⟩
    cases cur with
    | none =>
      simp only [] at h
      rw [if_pos trivial] at h
      exact hnew h
    | some cv =>
      simp only [] at h
      by_cases hlt : distMeasured w tp n < md
      · rw [if_pos (decide_eq_true hlt)] at h
        exact hnew h
      · rw [if_neg (fun hc => hlt (of_decide_eq_true hc))] at h
        exact hold h

/-- Claim C8 amended (the parts of the claim that hold): the proximity
fallback runs only when fewer than 10 codes are resolved at its entry; and
an accepted token comes from the numeric tokens of the window
`text[max(0, i-50) : min(len, i+100)]` around the term's first occurrence
`i`, at a measured distance below 50 — where the distance is measured to
the first occurrence of the token's text in the window, not to the token
itself (see the counterexample). -/
theorem c8_amended :
    (∀ (terms : List String) (text : String) (m : RMap),
        10 ≤ m.length → proximityStage terms text m = m) ∧
    (∀ (text : Chars) (term : String) (tok : Chars),
        proxTokenAccepted text term = some tok →
        ∃ ti, findSub (text.map lowc) ((cs term).map lowc) = some ti ∧
          tok ∈ findNumbers (windowOf text ti) ∧
          distMeasured (windowOf text ti) (termPosInWindow ti) tok < 50) := by
  constructor
  · intro terms text m hlen
    unfold proximityStage
    rw [if_neg (Nat.not_lt.mpr hlen)]
  · intro text term tok h
    unfold proxTokenAccepted at h
    cases hfs : findSub (text.map lowc) ((cs term).map lowc) with
    | none => rw [hfs] at h; exact absurd h (by simp)
    | some ti =>
      rw [hfs] at h
      simp only [] at h
      by_cases hemp : (findNumbers (windowOf text ti)).isEmpty = true
      · rw [if_pos hemp] at h; exact absurd h (by simp)
      · rw [if_neg hemp] at h
        refine ⟨ti, rfl, ?_⟩
        rcases hcl : closestLoop (windowOf text ti) (termPosInWindow ti)
            (findNumbers (windowOf text ti)) (none, 0) with ⟨ocn, d⟩
        rw [hcl] at h
        cases ocn with
        | none => simp only [] at h; exact absurd h (by simp)
        | some cn =>
          simp only [] at h
          by_cases hacc : (¬ cn.isEmpty = true) ∧ d < 50
          · rw [if_pos hacc] at h
            have htok : cn = tok := by injection h
            rcases closestLoop_spec _ _ _ _ _ _ hcl with hinit | ⟨hmem, hd⟩
            · exact absurd hinit (by simp)
            · subst htok
              exact ⟨hmem, hd ▸ hacc.2⟩
          · rw [if_neg hacc] at h
            exact absurd h (by simp)

/-- Text of the C8 counterexample: the term `Ferritin` starts at index 22,
the digits `877` occupy indices 0–2 (22 characters before the term), the
digits `77` occupy indices 77–78 (55 characters after the term, beyond the
claimed 50-character acceptance radius), and there are no other digits. -/
def c8text : String :=
  "877\nzzzzzzzzzzzzzzzzzzFerritin\nzzzzzzzzzzzzzzzzzzzzzzzzzzzzzzzzzzzzzzzzzzzzzz77"

/-- Claim C8 states the nearest number by character distance is chosen and
accepted only within 50 characters.  Run on `c8text` with a still-empty
result map, the proximity fallback resolves Ferritin to 77, whose token
lies 55 characters from the term, while the nearer number 877 (22
characters away) is passed over: the distance is computed from
`window.find(num_str)`, and the first occurrence of `"77"` is inside
`"877"`. -/
theorem c8_counterexample :
    proximityStage ["Ferritin"] c8text [] = [("Ferritin", 77)] ∧
      findSub ((cs c8text).map lowc) (cs "ferritin") = some 22 ∧
      (((cs c8text).enum.filter (fun p => isDigitC p.2)).map (fun p => p.1)) =
        [0, 1, 2, 77, 78] ∧
      findNumbers (cs c8text) = [cs "877", cs "77"] :=
  ⟨by decide, by decide, by decide, by decide⟩

/-- Mapping with ten resolved codes, for the C8 witness. -/
def tenResolved : RMap :=
  [("a", 1), ("b", 1), ("c", 1), ("d", 1), ("e", 1),
   ("f", 1), ("g", 1), ("h", 1), ("i", 1), ("j", 1)]

theorem c8_amended_witness :
    proximityStage ["Ferritin"] "x" tenResolved = tenResolved ∧
      ∃ ti, findSub ((cs c8text).map lowc) ((cs "Ferritin").map lowc) = some ti ∧
        cs "77" ∈ findNumbers (windowOf (cs c8text) ti) ∧
        distMeasured (windowOf (cs c8text) ti) (termPosInWindow ti) (cs "77") < 50 :=
  ⟨c8_amended.1 ["Ferritin"] "x" tenResolved (by decide),
   c8_amended.2 (cs c8text) "Ferritin" (cs "77") (by decide)⟩

instance : IsTotal (ℚ × ℕ) descLex :=
  ⟨fun a b => by
    unfold descLex
    rcases lt_trichotomy a.1 b.1 with h | h | h
    · exact Or.inr (Or.inl h)
    · rcases le_total b.2 a.2 with h2 | h2
      · exact Or.inl (Or.inr ⟨h.symm, h2⟩)
      · exact Or.inr (Or.inr ⟨h, h2⟩)
    · exact Or.inl (Or.inl h)⟩

instance : IsTrans (ℚ × ℕ) descLex :=
  ⟨fun a b c hab hbc => by
    unfold descLex at hab hbc ⊢
    rcases hab with h1 | ⟨h1, h1'⟩ <;> rcases hbc with h2 | ⟨h2, h2'⟩
    · exact Or.inl (lt_trans h2 h1)
    · exact Or.inl (by rw [h2]; exact h1)
    · exact Or.inl (by rw [← h1]; exact h2)
    · exact Or.inr ⟨h2.trans h1, le_trans h2' h1'⟩⟩

/-- A sentence index determines its score: `sentence_scores` is a dict
keyed by the index. -/
lemma sentenceScorePairs_unique (env : NLPEnv) (text : String) {s s' : ℚ} {i : ℕ}
    (h1 : (s, i) ∈ sentenceScorePairs env text)
    (h2 : (s', i) ∈ sentenceScorePairs env text) : s = s' := by
  unfold sentenceScorePairs at h1 h2
  rw [List.mem_filterMap] at h1 h2
  obtain ⟨⟨i1, sent1⟩, hm1, hf1⟩ := h1
  obtain ⟨⟨i2, sent2⟩, hm2, hf2⟩ := h2
  rw [Option.map_eq_some'] at hf1 hf2
  obtain ⟨sc1, hsc1, he1⟩ := hf1
  obtain ⟨sc2, hsc2, he2⟩ := hf2
  obtain ⟨hs1, hi1⟩ := Prod.mk.injEq _ _ _ _ ▸ he1
  obtain ⟨hs2, hi2⟩ := Prod.mk.injEq _ _ _ _ ▸ he2
  simp only [] at hi1 hi2 hsc1 hsc2
  subst hs1; subst hs2
  have hii : i1 = i2 := hi1.trans hi2.symm
  subst hii
  rw [List.mem_enum_iff_getElem?] at hm1 hm2
  have hsent : sent1 = sent2 := by
    have := hm1.symm.trans hm2
    exact Option.some.inj this
  subst hsent
  rw [hsc1] at hsc2
  exact Option.some.inj hsc2

/-- Claim C10: with more sentences than requested, ranking sorts the
`(score, index)` pairs descending, so among equal scores the
later-occurring sentence is preferred into the top `num`; the selected
indices are then re-sorted ascending and joined in document order. -/
theorem c10_tiebreak (env : NLPEnv) (text : String) (num : ℕ)
    (h : num < (env.sentTok text).length) (i j : ℕ) (s : ℚ)
    (hi : (s, i) ∈ sentenceScorePairs env text)
    (hj : (s, j) ∈ sentenceScorePairs env text)
    (hij : i < j) (hisel : i ∈ topSentenceIndices env text num) :
    j ∈ topSentenceIndices env text num ∧
      simple_text_summarization env text num =
        joinSp ((List.insertionSort (· ≤ ·) (topSentenceIndices env text num)).map
          (fun k => (env.sentTok text).getD k "")) := by
  have hperm : (rankedPairs env text).Perm (sentenceScorePairs env text) :=
    List.perm_insertionSort descLex _
  constructor
  · by_contra hjn
    unfold topSentenceIndices at hisel hjn
    rw [List.mem_map] at hisel
    obtain ⟨p, hpmem, hpi⟩ := hisel
    have hppairs : p ∈ sentenceScorePairs env text :=
      hperm.mem_iff.mp (List.mem_of_mem_take hpmem)
    have hp : p = (s, i) := by
      obtain ⟨ps, pi⟩ := p
      simp only [] at hpi
      subst hpi
      have : ps = s := sentenceScorePairs_unique env text hppairs hi
      rw [this]
    rw [hp] at hpmem
    have hjr : (s, j) ∈ rankedPairs env text := hperm.mem_iff.mpr hj
    have hjt : (s, j) ∉ (rankedPairs env text).take num := fun hmem =>
      hjn (List.mem_map.mpr ⟨(s, j), hmem, rfl⟩)
    have hjd : (s, j) ∈ (rankedPairs env text).drop num := by
      rcases List.mem_append.mp
          ((List.take_append_drop num (rankedPairs env text)).symm ▸ hjr) with hmem | hmem
      · exact absurd hmem hjt
      · exact hmem
    have hsorted : List.Pairwise descLex (rankedPairs env text) :=
      List.sorted_insertionSort descLex _
    have hP : List.Pairwise descLex
        ((rankedPairs env text).take num ++ (rankedPairs env text).drop num) := by
      rw [List.take_append_drop]; exact hsorted
    have hrel := (List.pairwise_append.mp hP).2.2 (s, i) hpmem (s, j) hjd
    unfold descLex at hrel
    rcases hrel with h' | ⟨_, h'⟩
    · exact lt_irrefl s h'
    · omega
  · unfold simple_text_summarization
    rw [if_neg (by omega : ¬ (env.sentTok text).length ≤ num)]

lemma lookup_mem {α β : Type} [BEq α] [LawfulBEq α] {l : List (α × β)} {k : α} {b : β}
    (h : List.lookup k l = some b) : (k, b) ∈ l := by
  induction l with
  | nil => simp [List.lookup] at h
  | cons a tl ih =>
    cases hka : (k == a.1) with
    | true =>
      simp only [List.lookup, hka] at h
      cases h
      have : k = a.1 := eq_of_beq hka
      rw [this]
      exact List.mem_cons_self _ _
    | false =>
      simp only [List.lookup, hka] at h
      exact List.mem_cons_of_mem _ (ih h)

/-- Every range of the reference table has its low bound at most its high
bound. -/
lemma NORMAL_RANGES_wf :
    NORMAL_RANGES.all (fun e => decide (e.2.1 ≤ e.2.2.1)) = true := by decide

lemma analyze_tests_mem (l : RMap) :
    ∀ e ∈ (analyze_blood_results l).1, e.test ∈ l.map Prod.fst := by
  induction l with
  | nil => intro e he; simp [analyze_blood_results] at he
  | cons p rest ih =>
    obtain ⟨t0, v0⟩ := p
    intro e he
    unfold analyze_blood_results at he
    simp only [] at he
    cases hlk : List.lookup t0 NORMAL_RANGES with
    | none =>
      rw [hlk] at he
      exact List.mem_cons_of_mem _ (ih e he)
    | some r =>
      obtain ⟨lo0, hi0, u0⟩ := r
      rw [hlk] at he
      simp only [] at he
      by_cases h1 : v0 < lo0
      · rw [if_pos h1] at he
        rcases List.mem_cons.mp he with rfl | he'
        · exact List.mem_cons_self _ _
        · exact List.mem_cons_of_mem _ (ih e he')
      · rw [if_neg h1] at he
        by_cases h2 : hi0 < v0
        · rw [if_pos h2] at he
          rcases List.mem_cons.mp he with rfl | he'
          · exact List.mem_cons_self _ _
          · exact List.mem_cons_of_mem _ (ih e he')
        · rw [if_neg h2] at he
          exact List.mem_cons_of_mem _ (ih e he)

/-- Claim C5: with a reference range present, a value strictly below the
low bound yields a Low abnormal entry, a value strictly above the high
bound yields a High entry, and a value inside the closed interval —
including exactly at either bound — yields no abnormal entry for that
code. -/
theorem c5_strict_bounds (results : RMap) (hnd : (results.map Prod.fst).Nodup)
    (test : String) (v lo hi : ℚ) (u : String)
    (hr : List.lookup test NORMAL_RANGES = some (lo, hi, u))
    (hm : (test, v) ∈ results) :
    (v < lo →
      (⟨test, corpusGet test, v, u, .low⟩ : Abnormal) ∈ (analyze_blood_results results).1) ∧
    (hi < v →
      (⟨test, corpusGet test, v, u, .high⟩ : Abnormal) ∈ (analyze_blood_results results).1) ∧
    (lo ≤ v → v ≤ hi → ∀ e ∈ (analyze_blood_results results).1, e.test ≠ test) := by
  have hlohi : lo ≤ hi := by
    have hmem := lookup_mem hr
    have := List.all_eq_true.mp NORMAL_RANGES_wf _ hmem
    exact of_decide_eq_true this
  induction results with
  | nil => simp at hm
  | cons p rest ih =>
    obtain ⟨t0, v0⟩ := p
    have hnd0 : t0 ∉ rest.map Prod.fst := (List.nodup_cons.mp hnd).1
    have hndr : (rest.map Prod.fst).Nodup := (List.nodup_cons.mp hnd).2
    rcases List.mem_cons.mp hm with heq | hm'
    · obtain ⟨he1, he2⟩ := Prod.mk.injEq _ _ _ _ ▸ heq
      subst he1; subst he2
      refine ⟨?_, ?_, ?_⟩
      · intro hlt
        unfold analyze_blood_results
        simp only [hr]
        rw [if_pos hlt]
        exact List.mem_cons_self _ _
      · intro hgt
        unfold analyze_blood_results
        simp only [hr]
        rw [if_neg (by push_neg; linarith), if_pos hgt]
        exact List.mem_cons_self _ _
      · intro hle1 hle2 e he
        unfold analyze_blood_results at he
        simp only [hr] at he
        rw [if_neg (by push_neg; exact hle1), if_neg (by push_neg; exact hle2)] at he
        intro hetest
        exact hnd0 (hetest ▸ analyze_tests_mem rest e he)
    · have htest_rest : test ∈ rest.map Prod.fst := List.mem_map.mpr ⟨(test, v), hm', rfl⟩
      have ht0 : test ≠ t0 := fun he => hnd0 (he ▸ htest_rest)
      obtain ⟨c1, c2, c3⟩ := ih hndr hm'
      have step : ∀ e, e ∈ (analyze_blood_results ((t0, v0) :: rest)).1 →
          e ∈ (analyze_blood_results rest).1 ∨ e.test = t0 := by
        intro e he
        unfold analyze_blood_results at he
        simp only [] at he
        cases hlk : List.lookup t0 NORMAL_RANGES with
        | none => rw [hlk] at he; exact Or.inl he
        | some r =>
          obtain ⟨lo0, hi0, u0⟩ := r
          rw [hlk] at he
          simp only [] at he
          by_cases h1 : v0 < lo0
          · rw [if_pos h1] at he
            rcases List.mem_cons.mp he with rfl | he'
            · exact Or.inr rfl
            · exact Or.inl he'
          · rw [if_neg h1] at he
            by_cases h2 : hi0 < v0
            · rw [if_pos h2] at he
              rcases List.mem_cons.mp he with rfl | he'
              · exact Or.inr rfl
              · exact Or.inl he'
            · rw [if_neg h2] at he; exact Or.inl he
      have lift : ∀ e, e ∈ (analyze_blood_results rest).1 →
          e ∈ (analyze_blood_results ((t0, v0) :: rest)).1 := by
        intro e he
        unfold analyze_blood_results
        simp only []
        cases hlk : List.lookup t0 NORMAL_RANGES with
        | none => exact he
        | some r =>
          obtain ⟨lo0, hi0, u0⟩ := r
          simp only []
          by_cases h1 : v0 < lo0
          · rw [if_pos h1]; exact List.mem_cons_of_mem _ he
          · rw [if_neg h1]
            by_cases h2 : hi0 < v0
            · rw [if_pos h2]; exact List.mem_cons_of_mem _ he
            · rw [if_neg h2]; exact he
      refine ⟨fun hlt => lift _ (c1 hlt), fun hgt => lift _ (c2 hgt), ?_⟩
      intro hle1 hle2 e he
      rcases step e he with he' | he'
      · exact c3 hle1 hle2 e he'
      · rw [he']; exact fun hc => ht0 hc.symm

theorem c5_strict_bounds_witness :
    (⟨"Hb", corpusGet "Hb", 13, "g/dL", .low⟩ : Abnormal) ∈
        (analyze_blood_results [("Hb", 13)]).1 ∧
      ¬ (⟨"Hb", corpusGet "Hb", 13.5, "g/dL", .low⟩ : Abnormal) ∈
        (analyze_blood_results [("Hb", 13.5)]).1 :=
  ⟨(c5_strict_bounds [("Hb", 13)] (by decide) "Hb" 13 13.5 17.5 "g/dL" (by decide)
      (by decide)).1 (by decide),
   fun hmem =>
    (c5_strict_bounds [("Hb", 13.5)] (by decide) "Hb" 13.5 13.5 17.5 "g/dL"
        (by decide) (by decide)).2.2 (by decide) (by decide) _ hmem rfl⟩

/-- Concrete oracle for the C10 witness: three sentences, two of which have
the same score. -/
def summEnvW : NLPEnv :=
  { sentTok := fun _ => ["b x", "b y", "q"]
    wordTok := pySplitSp
    stopList := []
    posTag := fun _ => [] }

theorem c10_tiebreak_witness :
    1 ∈ topSentenceIndices summEnvW "b x b y" 2 ∧
      simple_text_summarization summEnvW "b x b y" 2 =
        joinSp ((List.insertionSort (· ≤ ·) (topSentenceIndices summEnvW "b x b y" 2)).map
          (fun k => (summEnvW.sentTok "b x b y").getD k "")) :=
  c10_tiebreak summEnvW "b x b y" 2 (by decide) 0 1 (3/2)
    (by decide) (by decide) (by decide) (by decide)

/-- Panel designated for a code by the category table: the first non-`Other`
panel whose list contains it, else `Other`. -/
def panelOf (t : String) : String :=
  ((bloodCategories.find? (fun c => c.1 != "Other" && c.2.contains t)).map (·.1)).getD
    "Other"

lemma mem_lookup_of_nodup {l : RMap} {t : String} {v : ℚ}
    (hnd : (l.map Prod.fst).Nodup) (hm : (t, v) ∈ l) : List.lookup t l = some v := by
  induction l with
  | nil => simp at hm
  | cons a rest ih =>
    have hnd0 : a.1 ∉ rest.map Prod.fst := (List.nodup_cons.mp hnd).1
    have hndr : (rest.map Prod.fst).Nodup := (List.nodup_cons.mp hnd).2
    rcases List.mem_cons.mp hm with heq | hm'
    · rw [← heq]
      simp [List.lookup]
    · have hne : t ≠ a.1 := by
        intro he
        exact hnd0 (he ▸ List.mem_map.mpr ⟨(t, v), hm', rfl⟩)
      simp only [List.lookup, beq_eq_false_iff_ne.mpr hne]
      exact ih hndr hm'

lemma panelBucket_mem_iff {results : RMap} {tests : List String} {t : String} {v : ℚ} :
    (t, v) ∈ panelBucket results tests ↔ t ∈ tests ∧ List.lookup t results = some v := by
  unfold panelBucket
  rw [List.mem_filterMap]
  constructor
  · rintro ⟨a, ha, hf⟩
    rw [Option.map_eq_some'] at hf
    obtain ⟨w, hw, he⟩ := hf
    obtain ⟨he1, he2⟩ := Prod.mk.injEq _ _ _ _ ▸ he
    subst he1; subst he2
    exact ⟨ha, hw⟩
  · rintro ⟨ht, hl⟩
    exact ⟨t, ht, by rw [hl]; rfl⟩

lemma panelBucket_hasKey_iff {results : RMap} {tests : List String} {t : String} :
    (panelBucket results tests).any (fun p => p.1 == t) = true ↔
      t ∈ tests ∧ (List.lookup t results).isSome := by
  rw [List.any_eq_true]
  constructor
  · rintro ⟨⟨t', v'⟩, hmem, hk⟩
    have ht' : t' = t := beq_iff_eq.mp hk
    subst ht'
    obtain ⟨h1, h2⟩ := panelBucket_mem_iff.mp hmem
    exact ⟨h1, by rw [h2]; rfl⟩
  · rintro ⟨ht, hs⟩
    cases hl : List.lookup t results with
    | none => rw [hl] at hs; simp at hs
    | some v => exact ⟨(t, v), panelBucket_mem_iff.mpr ⟨ht, hl⟩, by simp⟩

/-- Counting buckets holding a key over the main pass equals counting table
entries listing the key (when the key resolves, its bucket is nonempty and
survives the emptiness filter). -/
lemma countP_main_hasKey (results : RMap) (t : String) :
    ∀ table : List (String × List String),
      (table.filterMap (fun c =>
        if (panelBucket results c.2).isEmpty then none
        else some (c.1, panelBucket results c.2))).countP
          (fun c => c.2.any (fun p => p.1 == t)) =
        table.countP (fun c => c.2.contains t && (List.lookup t results).isSome) := by
  intro table
  induction table with
  | nil => rfl
  | cons c rest ih =>
    simp only [List.filterMap_cons]
    by_cases hemp : (panelBucket results c.2).isEmpty = true
    · rw [if_pos hemp]
      rw [List.countP_cons]
      have hz : (c.2.contains t && (List.lookup t results).isSome) = false := by
        cases hco : (c.2.contains t && (List.lookup t results).isSome) with
        | false => rfl
        | true =>
          exfalso
          obtain ⟨ha, hb⟩ := (Bool.and_eq_true _ _) ▸ hco
          have hkey : (panelBucket results c.2).any (fun p => p.1 == t) = true :=
            panelBucket_hasKey_iff.mpr ⟨by simpa using ha, hb⟩
          rw [List.any_eq_true] at hkey
          obtain ⟨x, hx, _⟩ := hkey
          rw [List.isEmpty_iff] at hemp
          rw [hemp] at hx
          simp at hx
      rw [hz, ih]
      simp
    · rw [if_neg hemp]
      rw [List.countP_cons, List.countP_cons, ih]
      have : ((panelBucket results c.2).any (fun p => p.1 == t)) =
          (c.2.contains t && (List.lookup t results).isSome) := by
        by_cases hk : (panelBucket results c.2).any (fun p => p.1 == t) = true
        · obtain ⟨h1, h2⟩ := panelBucket_hasKey_iff.mp hk
          rw [hk]
          have h1' : c.2.contains t = true := by
            rw [List.contains_eq_any_beq, List.any_eq_true]
            exact ⟨t, h1, by simp⟩
          rw [h1', h2]
          rfl
        · rw [Bool.not_eq_true] at hk
          rw [hk]
          cases hco : (c.2.contains t && (List.lookup t results).isSome) with
          | false => rfl
          | true =>
            exfalso
            obtain ⟨ha, hb⟩ := (Bool.and_eq_true _ _) ▸ hco
            exact absurd (panelBucket_hasKey_iff.mpr ⟨by simpa using ha, hb⟩)
              (by rw [hk]; simp)
      rw [this]

/-- Pairwise disjointness of the non-`Other` panel lists (the `Other` entry
is empty), checked on the concrete table. -/
lemma bloodCategories_pairwise :
    bloodCategories.Pairwise (fun a b => ∀ x, x ∈ a.2 → x ∉ b.2) := by decide

lemma countP_contains_eq_one {t : String} :
    ∀ {table : List (String × List String)},
      table.Pairwise (fun a b => ∀ x, x ∈ a.2 → x ∉ b.2) →
      ∀ c0 ∈ table, t ∈ c0.2 →
      table.countP (fun c => c.2.contains t) = 1 := by
  intro table
  induction table with
  | nil => intro _ c0 h; simp at h
  | cons c rest ih =>
    intro hpw c0 hc0 ht
    have hpw1 := (List.pairwise_cons.mp hpw).1
    have hpwr := (List.pairwise_cons.mp hpw).2
    rcases List.mem_cons.mp hc0 with rfl | hc0'
    · rw [List.countP_cons]
      have hhd : c0.2.contains t = true := by
        rw [List.contains_eq_any_beq, List.any_eq_true]; exact ⟨t, ht, by simp⟩
      have hz : rest.countP (fun c => c.2.contains t) = 0 := by
        rw [List.countP_eq_zero]
        intro b hb hcon
        rw [List.contains_eq_any_beq, List.any_eq_true] at hcon
        obtain ⟨x, hx, hxe⟩ := hcon
        have hxt := beq_iff_eq.mp hxe
        subst hxt
        exact hpw1 b hb t ht hx
      rw [hz, hhd]
      simp
    · rw [List.countP_cons]
      have hhd : c.2.contains t = false := by
        by_contra hne
        have hcon : c.2.contains t = true := Bool.not_eq_false _ ▸ hne
        rw [List.contains_eq_any_beq, List.any_eq_true] at hcon
        obtain ⟨x, hx, hxe⟩ := hcon
        have hxt := beq_iff_eq.mp hxe
        subst hxt
        exact hpw1 c0 hc0' t hx ht
      rw [hhd, ih hpwr c0 hc0' ht]
      simp

/-- The `Other` entry of the category table has an empty test list. -/
lemma bloodCategories_other_empty :
    bloodCategories.all (fun c => c.1 != "Other" || c.2.isEmpty) = true := by decide

lemma mem_main_elim {results : RMap} {x : String × RMap}
    (hx : x ∈ bloodCategories.filterMap (fun c =>
      if (panelBucket results c.2).isEmpty then none
      else some (c.1, panelBucket results c.2))) :
    ∃ c ∈ bloodCategories, (panelBucket results c.2).isEmpty = false ∧
      x = (c.1, panelBucket results c.2) := by
  rw [List.mem_filterMap] at hx
  obtain ⟨c, hc, hf⟩ := hx
  by_cases hemp : (panelBucket results c.2).isEmpty = true
  · rw [if_pos hemp] at hf; simp at hf
  · rw [if_neg hemp] at hf
    exact ⟨c, hc, Bool.not_eq_true _ ▸ hemp, (Option.some.inj hf).symm⟩

/-- Claim C6: under unique keys, every extracted code lands in exactly one
category bucket — its designated panel when listed, else `Other` — with its
value unchanged; buckets contain only extracted entries; empty categories
are omitted. -/
theorem c6_categorize_partition (results : RMap)
    (hnd : (results.map Prod.fst).Nodup) :
    (∀ t v, (t, v) ∈ results →
      (∃ b, (panelOf t, b) ∈ categorize_blood_tests results ∧ (t, v) ∈ b) ∧
      (categorize_blood_tests results).countP
        (fun c => c.2.any (fun p => p.1 == t)) = 1) ∧
    (∀ c ∈ categorize_blood_tests results, ∀ p ∈ c.2, p ∈ results) ∧
    (∀ c ∈ categorize_blood_tests results, c.2 ≠ []) := by
  refine ⟨?_, ?_, ?_⟩
  · intro t v hm
    have hlk : List.lookup t results = some v := mem_lookup_of_nodup hnd hm
    have hisSome : (List.lookup t results).isSome = true := by rw [hlk]; rfl
    have hcntmain := countP_main_hasKey results t bloodCategories
    cases hfind : bloodCategories.find? (fun c => c.1 != "Other" && c.2.contains t) with
    | some c0 =>
      have hc0mem : c0 ∈ bloodCategories := List.mem_of_find?_eq_some hfind
      have hpred := List.find?_some hfind
      obtain ⟨hne0, hcont⟩ := (Bool.and_eq_true _ _) ▸ hpred
      have ht0 : t ∈ c0.2 := by simpa using hcont
      have hpan : panelOf t = c0.1 := by unfold panelOf; rw [hfind]; rfl
      have hbm : (t, v) ∈ panelBucket results c0.2 := panelBucket_mem_iff.mpr ⟨ht0, hlk⟩
      have hbne : (panelBucket results c0.2).isEmpty = false := by
        cases hie : (panelBucket results c0.2).isEmpty with
        | false => rfl
        | true => rw [List.isEmpty_iff] at hie; rw [hie] at hbm; simp at hbm
      have hmainmem : (c0.1, panelBucket results c0.2) ∈
          bloodCategories.filterMap (fun c =>
            if (panelBucket results c.2).isEmpty then none
            else some (c.1, panelBucket results c.2)) :=
        List.mem_filterMap.mpr ⟨c0, hc0mem, by rw [if_neg (by rw [hbne]; simp)]⟩
      have hanyp : inAnyPanel t = true := by
        unfold inAnyPanel
        rw [List.any_eq_true]
        exact ⟨c0, hc0mem, hpred⟩
      have hothno : ∀ b : RMap, b = results.filter (fun p => !inAnyPanel p.1) →
          b.any (fun p => p.1 == t) = false := by
        intro b hb
        rw [List.any_eq_false]
        rintro ⟨t', v'⟩ hmem hk
        have ht' : t' = t := beq_iff_eq.mp hk
        subst ht'
        rw [hb, List.mem_filter] at hmem
        rw [hanyp] at hmem
        simp at hmem
      have hcnt1 : (bloodCategories.filterMap (fun c =>
            if (panelBucket results c.2).isEmpty then none
            else some (c.1, panelBucket results c.2))).countP
          (fun c => c.2.any (fun p => p.1 == t)) = 1 := by
        rw [hcntmain]
        have hsimp : (fun (c : String × List String) =>
            c.2.contains t && (List.lookup t results).isSome) =
            (fun c => c.2.contains t) := by
          funext c
          rw [hisSome, Bool.and_true]
        rw [hsimp]
        exact countP_contains_eq_one bloodCategories_pairwise c0 hc0mem ht0
      constructor
      · refine ⟨panelBucket results c0.2, ?_, hbm⟩
        rw [hpan]
        unfold categorize_blood_tests
        simp only []
        by_cases hoe : (results.filter (fun p => !inAnyPanel p.1)).isEmpty = true
        · rw [if_pos hoe]; exact hmainmem
        · rw [if_neg hoe]; exact List.mem_append_left _ hmainmem
      · unfold categorize_blood_tests
        simp only []
        by_cases hoe : (results.filter (fun p => !inAnyPanel p.1)).isEmpty = true
        · rw [if_pos hoe]; exact hcnt1
        · rw [if_neg hoe]
          rw [List.countP_append, hcnt1]
          have : List.countP (fun c => c.2.any (fun p => p.1 == t))
              [("Other", results.filter (fun p => !inAnyPanel p.1))] = 0 := by
            rw [List.countP_eq_zero]
            intro a ha
            rw [List.mem_singleton] at ha
            subst ha
            intro hh
            rw [hothno _ rfl] at hh
            exact Bool.false_ne_true hh
          rw [this]
    | none =>
      have hnp : inAnyPanel t = false := by
        unfold inAnyPanel
        rw [List.any_eq_false]
        exact List.find?_eq_none.mp hfind
      have hom : (t, v) ∈ results.filter (fun p => !inAnyPanel p.1) :=
        List.mem_filter.mpr ⟨hm, by rw [hnp]; rfl⟩
      have hoe : (results.filter (fun p => !inAnyPanel p.1)).isEmpty = false := by
        cases hie : (results.filter (fun p => !inAnyPanel p.1)).isEmpty with
        | false => rfl
        | true => rw [List.isEmpty_iff] at hie; rw [hie] at hom; simp at hom
      have hpan : panelOf t = "Other" := by unfold panelOf; rw [hfind]; rfl
      have hcnt0 : (bloodCategories.filterMap (fun c =>
            if (panelBucket results c.2).isEmpty then none
            else some (c.1, panelBucket results c.2))).countP
          (fun c => c.2.any (fun p => p.1 == t)) = 0 := by
        rw [hcntmain, List.countP_eq_zero]
        intro c hc hh
        obtain ⟨hcont, _⟩ := (Bool.and_eq_true _ _) ▸ hh
        have hpredf := List.find?_eq_none.mp hfind c hc
        by_cases hon : c.1 = "Other"
        · have hall := List.all_eq_true.mp bloodCategories_other_empty c hc
          have hne' : (c.1 != "Other") = false := by simp [hon]
          rw [hne', Bool.false_or, List.isEmpty_iff] at hall
          rw [hall] at hcont
          simp at hcont
        · apply hpredf
          rw [Bool.and_eq_true]
          exact ⟨by simp [hon], hcont⟩
      constructor
      · refine ⟨results.filter (fun p => !inAnyPanel p.1), ?_, hom⟩
        rw [hpan]
        unfold categorize_blood_tests
        simp only []
        rw [if_neg (by rw [hoe]; simp)]
        exact List.mem_append_right _ (List.mem_singleton.mpr rfl)
      · unfold categorize_blood_tests
        simp only []
        rw [if_neg (by rw [hoe]; simp)]
        rw [List.countP_append, hcnt0]
        have : List.countP (fun c => c.2.any (fun p => p.1 == t))
            [("Other", results.filter (fun p => !inAnyPanel p.1))] = 1 := by
          have hany : (results.filter (fun p => !inAnyPanel p.1)).any
              (fun p => p.1 == t) = true := by
            rw [List.any_eq_true]
            exact ⟨(t, v), hom, by simp⟩
          simp [List.countP_cons, hany]
        rw [this]
  · intro c hc p hp
    revert hc
    unfold categorize_blood_tests
    simp only []
    intro hc
    have hmemcase : c ∈ bloodCategories.filterMap (fun c =>
        if (panelBucket results c.2).isEmpty then none
        else some (c.1, panelBucket results c.2)) ∨
        c = ("Other", results.filter (fun p => !inAnyPanel p.1)) := by
      by_cases hoe : (results.filter (fun p => !inAnyPanel p.1)).isEmpty = true
      · rw [if_pos hoe] at hc; exact Or.inl hc
      · rw [if_neg hoe] at hc
        rcases List.mem_append.mp hc with hmm | hmm
        · exact Or.inl hmm
        · exact Or.inr (List.mem_singleton.mp hmm)
    rcases hmemcase with hmm | hmm
    · obtain ⟨c', _, _, hce⟩ := mem_main_elim hmm
      rw [hce] at hp
      obtain ⟨t', v'⟩ := p
      exact lookup_mem (panelBucket_mem_iff.mp hp).2
    · rw [hmm] at hp
      exact (List.mem_filter.mp hp).1
  · intro c hc
    revert hc
    unfold categorize_blood_tests
    simp only []
    intro hc
    by_cases hoe : (results.filter (fun p => !inAnyPanel p.1)).isEmpty = true
    · rw [if_pos hoe] at hc
      obtain ⟨c', _, hne, hce⟩ := mem_main_elim hc
      rw [hce]
      intro hh
      rw [show panelBucket results c'.2 = [] from hh] at hne
      simp at hne
    · rw [if_neg hoe] at hc
      rcases List.mem_append.mp hc with hmm | hmm
      · obtain ⟨c', _, hne, hce⟩ := mem_main_elim hmm
        rw [hce]
        intro hh
        rw [show panelBucket results c'.2 = [] from hh] at hne
        simp at hne
      · rw [List.mem_singleton.mp hmm]
        intro hh
        rw [show results.filter (fun p => !inAnyPanel p.1) = [] from hh] at hoe
        simp at hoe

theorem c6_categorize_partition_witness :
    (∃ b, (panelOf "Hb", b) ∈ categorize_blood_tests [("Hb", 10), ("Zeta", 1)] ∧
      ("Hb", (10 : ℚ)) ∈ b) ∧
      (categorize_blood_tests [("Hb", 10), ("Zeta", 1)]).countP
        (fun c => c.2.any (fun p => p.1 == "Hb")) = 1 :=
  ((c6_categorize_partition [("Hb", 10), ("Zeta", 1)] (by decide)).1 "Hb" 10 (by decide))
